import Mathlib

/-!
# The script resource of the Linux provider

A shallow embedding of `linux/script-resource.go`: the handlers `Read`, `Create`,
`Update`, `Delete` and `CustomizeDiff` of `handlerScriptResource`, over a model of
the declarative store they are handed (`schema.ResourceData`, `schema.ResourceDiff`)
and of the remote end they run commands on.

Conventions of the embedding.

* A Go `interface{}` read from the store is a `Value`; the `cast` helpers turn it
  back into a typed value, as in the source.
* A Go `error` is an `Option error` (`none` is `nil`).
* A run-time fault of the handler (indexing an empty list) is the result `none`.
* The executor `script.exec` and the random source behind `uuid.NewRandom` are not
  part of the file: they are the fields of `Externals`, functions of an arbitrary
  remote world `W`.  `Host.executed` records, in order, every script handed to the
  executor.
-/

namespace linux

/-! ## Attribute names -/

abbrev attrScriptLifecycleCommands : String := "lifecycle_commands"
abbrev attrScriptLifecycleCommandCreate : String := "create"
abbrev attrScriptLifecycleCommandRead : String := "read"
abbrev attrScriptLifecycleCommandUpdate : String := "update"
abbrev attrScriptLifecycleCommandDelete : String := "delete"
abbrev attrScriptTriggers : String := "triggers"
abbrev attrScriptEnvironment : String := "environment"
abbrev attrScriptSensitiveEnvironment : String := "sensitive_environment"
abbrev attrScriptInterpreter : String := "interpreter"
abbrev attrScriptWorkingDirectory : String := "working_directory"
abbrev attrScriptDirty : String := "dirty"
abbrev attrScriptReadFailed : String := "read_failed"
abbrev attrScriptReadError : String := "read_error"
abbrev attrScriptOutput : String := "output"

/-! ## Go values -/

/-- A Go `map[string]string`: finitely many entries, one per key. -/
abbrev StringMap : Type := AList (fun _ : String => String)

/-- One `lifecycle_commands` block. The store hands a block over with all four
fields present; a body that is not configured reads as the empty string. -/
structure LifecycleCommands where
  create : String
  read : String
  update : String
  delete : String
deriving DecidableEq

/-- A Go `error` as the handlers observe it: the text of `Error()` and whether
`errors.As` finds a `*remote.ExitError` in its chain. -/
structure error where
  msg : String
  isExit : Bool
deriving DecidableEq

/-- The method `err.Error()`. -/
def error.Error (e : error) : String := e.msg

/-- The test `errors.As(err, &errExit)` with `errExit` a `*remote.ExitError`;
it is false on a nil error. -/
def errors.As (err : Option error) : Bool :=
  match err with
  | some e => e.isExit
  | none => false

/-- The call `fmt.Errorf` once its format is expanded: a fresh error, no exit error inside. -/
def fmt.Errorf (msg : String) : error := { msg := msg, isExit := false }

/-- A value read from or written to the store (a Go `interface{}`). -/
inductive Value where
  | null
  | bool (b : Bool)
  | int (n : Nat)
  | str (s : String)
  | strs (l : List String)
  | map (m : StringMap)
  | block (lc : LifecycleCommands)
  | blocks (l : List LifecycleCommands)
deriving DecidableEq

/-- The schema types that occur in `schemaScriptResource`. -/
inductive ValueType where
  | TypeBool
  | TypeString
  | TypeList
  | TypeMap
  | TypeBlockList
deriving DecidableEq

/-- Whether a value can be stored under a schema type. -/
def Value.hasType : Value → ValueType → Bool
  | .bool _, .TypeBool => true
  | .str _, .TypeString => true
  | .strs _, .TypeList => true
  | .map _, .TypeMap => true
  | .blocks _, .TypeBlockList => true
  | _, _ => false

/-- Go's `strconv.FormatBool`. -/
def strconv.FormatBool (b : Bool) : String := if b then "true" else "false"

/-- Go's `strconv.ParseBool`, with a failed parse read as `false` (as `cast.ToBool` does). -/
def strconv.ParseBool (s : String) : Bool :=
  s ∈ ["1", "t", "T", "true", "TRUE", "True"]

/-- The helper `cast.ToString`; a value with no string form gives the empty string. -/
def cast.ToString : Value → String
  | .str s => s
  | .bool b => strconv.FormatBool b
  | .int n => toString n
  | _ => ""

/-- The helper `cast.ToBool`; a value with no boolean form gives `false`. -/
def cast.ToBool : Value → Bool
  | .bool b => b
  | .int n => n != 0
  | .str s => strconv.ParseBool s
  | _ => false

/-- The helper `cast.ToSlice`: the elements of a list value. -/
def cast.ToSlice : Value → List Value
  | .strs l => l.map Value.str
  | .blocks l => l.map Value.block
  | _ => []

/-- The helper `cast.ToStringSlice`. -/
def cast.ToStringSlice : Value → List String
  | .strs l => l
  | _ => []

/-- The four fields of a block as a string map. -/
def LifecycleCommands.toMap (lc : LifecycleCommands) : StringMap :=
  (((((∅ : StringMap).insert attrScriptLifecycleCommandDelete lc.delete).insert
    attrScriptLifecycleCommandUpdate lc.update).insert
    attrScriptLifecycleCommandRead lc.read).insert
    attrScriptLifecycleCommandCreate lc.create)

/-- The helper `cast.ToStringMapString`; a fresh empty map for a value that is no map. -/
def cast.ToStringMapString : Value → StringMap
  | .map m => m
  | .block lc => lc.toMap
  | _ => ∅

/-- Indexing a Go `map[string]string`: the zero value for a missing key. -/
def StringMap.index (m : StringMap) (k : String) : String :=
  (m.lookup k).getD ""

/-- Go's `cmp.Equal` on two values of the store: maps are compared as maps, whatever
the order of their entries. -/
def Value.equal : Value → Value → Bool
  | .map m₁, .map m₂ => decide (m₁.entries.Perm m₂.entries)
  | v₁, v₂ => decide (v₁ = v₂)

/-! ## Strings -/

/-- Go's `strings.HasPrefix`. -/
def strings.HasPrefix (s p : String) : Bool := p.data.isPrefixOf s.data

/-- Go's `strings.Split` for a separator of one character. -/
def strings.Split (s : String) (sep : Char) : List String :=
  (s.data.splitOn sep).map String.mk

/-- Go's `strings.Join`. -/
def strings.Join (parts : List String) (sep : String) : String :=
  sep.intercalate parts

/-- The attribute a flat key belongs to: the part before the first dot
(`keyParts[0]` in the SDK). -/
def attributeOf (key : String) : String :=
  ((strings.Split key '.').head?).getD ""

/-- A decimal list index of a flat key such as `interpreter.0`. -/
def parseIndex (s : String) : Option Nat :=
  if s.data ≠ [] ∧ s.data.all Char.isDigit
  then some (s.data.foldl (fun n c => 10 * n + (c.toNat - 48)) 0)
  else none

/-! ## The attributes of a script resource -/

/-- The values of the ten attributes of `schemaScriptResource` at one level of the store. -/
structure Attrs where
  lifecycle_commands : List LifecycleCommands
  triggers : StringMap
  environment : StringMap
  sensitive_environment : StringMap
  interpreter : List String
  working_directory : String
  output : String
  dirty : Bool
  read_failed : Bool
  read_error : String
deriving DecidableEq

/-- One entry of `schemaScriptResource`: the type and the `ForceNew` flag. -/
structure Schema where
  type : ValueType
  forceNew : Bool

/-- The table `schemaScriptResource`. -/
def schemaScriptResource : List (String × Schema) :=
  [ (attrScriptLifecycleCommands, ⟨.TypeBlockList, false⟩),
    (attrScriptTriggers, ⟨.TypeMap, true⟩),
    (attrScriptEnvironment, ⟨.TypeMap, false⟩),
    (attrScriptSensitiveEnvironment, ⟨.TypeMap, false⟩),
    (attrScriptInterpreter, ⟨.TypeList, false⟩),
    (attrScriptWorkingDirectory, ⟨.TypeString, false⟩),
    (attrScriptOutput, ⟨.TypeString, false⟩),
    (attrScriptDirty, ⟨.TypeBool, false⟩),
    (attrScriptReadFailed, ⟨.TypeBool, false⟩),
    (attrScriptReadError, ⟨.TypeString, false⟩) ]

/-- Reading below the top of an attribute by the parts of a flat key:
`lifecycle_commands.0.update`, `environment.KEY`, `interpreter.1`, and the
counts `.#` and `.%`. -/
def Attrs.GetNested (a : Attrs) : List String → Value
  | [k, sub] =>
    let m : Option StringMap :=
      if k = attrScriptTriggers then some a.triggers
      else if k = attrScriptEnvironment then some a.environment
      else if k = attrScriptSensitiveEnvironment then some a.sensitive_environment
      else none
    match m with
    | some m => if sub = "%" then .int m.entries.length else
        match m.lookup sub with
        | some v => .str v
        | none => .null
    | none =>
      if k = attrScriptInterpreter then
        if sub = "#" then .int a.interpreter.length else
          match (parseIndex sub).bind (fun i => a.interpreter.get? i) with
          | some v => .str v
          | none => .null
      else if k = attrScriptLifecycleCommands ∧ sub = "#" then .int a.lifecycle_commands.length
      else .null
  | [k, idx, field] =>
    if k = attrScriptLifecycleCommands then
      match (parseIndex idx).bind (fun i => a.lifecycle_commands.get? i) with
      | some lc =>
        match lc.toMap.lookup field with
        | some v => .str v
        | none => .null
      | none => .null
    else .null
  | _ => .null

/-- Reading the attribute (or the nested value) a key addresses; `null` for a key
that addresses nothing. -/
def Attrs.Get (a : Attrs) (key : String) : Value :=
  if key = attrScriptLifecycleCommands then .blocks a.lifecycle_commands
  else if key = attrScriptTriggers then .map a.triggers
  else if key = attrScriptEnvironment then .map a.environment
  else if key = attrScriptSensitiveEnvironment then .map a.sensitive_environment
  else if key = attrScriptInterpreter then .strs a.interpreter
  else if key = attrScriptWorkingDirectory then .str a.working_directory
  else if key = attrScriptOutput then .str a.output
  else if key = attrScriptDirty then .bool a.dirty
  else if key = attrScriptReadFailed then .bool a.read_failed
  else if key = attrScriptReadError then .str a.read_error
  else a.GetNested (strings.Split key '.')

/-! ## The store handed to the handlers -/

/-- The SDK's `schema.ResourceData` for a script resource: the identifier, the
attributes of the prior state, the attributes with the planned diff applied, and the
values written by `Set` since the handler was entered (newest first). -/
structure ResourceData where
  id : String
  state : Attrs
  diff : Attrs
  setWriter : List (String × Value)

/-- The method `rd.Id()`. -/
def ResourceData.Id (rd : ResourceData) : String := rd.id

/-- The method `rd.SetId`. -/
def ResourceData.SetId (rd : ResourceData) (id : String) : ResourceData :=
  { rd with id := id }

/-- The method `rd.Get`: the value last written by `Set`, else the planned value. -/
def ResourceData.Get (rd : ResourceData) (key : String) : Value :=
  match rd.setWriter.lookup key with
  | some v => v
  | none => rd.diff.Get key

/-- The method `rd.GetChange`: the value in the prior state and the planned value;
values written by `Set` are not seen. -/
def ResourceData.GetChange (rd : ResourceData) (key : String) : Value × Value :=
  (rd.state.Get key, rd.diff.Get key)

/-- The method `rd.HasChange`. -/
def ResourceData.HasChange (rd : ResourceData) (key : String) : Bool :=
  !((rd.GetChange key).1.equal (rd.GetChange key).2)

/-- The method `rd.Set`: refused, leaving the store as it is, when the key is not in
the schema or the value is not of the key's type. -/
def ResourceData.Set (rd : ResourceData) (key : String) (v : Value) :
    ResourceData × Option error :=
  match schemaScriptResource.lookup key with
  | some sch =>
    if v.hasType sch.type then ({ rd with setWriter := (key, v) :: rd.setWriter }, none)
    else (rd, some (fmt.Errorf (key ++ ": invalid type")))
  | none => (rd, some (fmt.Errorf ("Invalid address to set: " ++ key)))

/-- The stores the SDK hands to `Update`: nothing has been written by `Set` yet, and
no attribute that the schema flags `ForceNew` has a change (the SDK plans such a
change as a replacement, `Delete` then `Create`, and never calls `Update` for it). -/
def ResourceData.UpdateCall (rd : ResourceData) : Prop :=
  rd.setWriter = [] ∧
    ∀ p ∈ schemaScriptResource, p.2.forceNew = true → rd.HasChange p.1 = false

/-- The store the SDK builds for `Read`: the prior state alone, no diff, nothing set. -/
def ResourceData.ofState (id : String) (s : Attrs) : ResourceData :=
  { id := id, state := s, diff := s, setWriter := [] }

/-- The blocks of a list-of-blocks value; no block for any other value. -/
def Value.toBlocks : Value → List LifecycleCommands
  | .blocks l => l
  | _ => []

/-- The method `rd.State()`: the attributes the SDK persists once a handler has
returned without error, each read as `Get` reads it. -/
def ResourceData.State (rd : ResourceData) : Attrs :=
  { lifecycle_commands := (rd.Get attrScriptLifecycleCommands).toBlocks
    triggers := cast.ToStringMapString (rd.Get attrScriptTriggers)
    environment := cast.ToStringMapString (rd.Get attrScriptEnvironment)
    sensitive_environment := cast.ToStringMapString (rd.Get attrScriptSensitiveEnvironment)
    interpreter := cast.ToStringSlice (rd.Get attrScriptInterpreter)
    working_directory := cast.ToString (rd.Get attrScriptWorkingDirectory)
    output := cast.ToString (rd.Get attrScriptOutput)
    dirty := cast.ToBool (rd.Get attrScriptDirty)
    read_failed := cast.ToBool (rd.Get attrScriptReadFailed)
    read_error := cast.ToString (rd.Get attrScriptReadError) }

/-- The store the SDK builds for the next `Read` of a resource: the state persisted
from the store a handler handed back. -/
def ResourceData.next (rd : ResourceData) : ResourceData :=
  ResourceData.ofState rd.Id rd.State

/-- The zero value of a value's type, the one `GetOk` reports as not set. -/
def Value.isZero : Value → Bool
  | .null => true
  | .bool b => !b
  | .int n => n == 0
  | .str s => s == ""
  | .strs l => l.isEmpty
  | .map m => m.entries.isEmpty
  | .block _ => false
  | .blocks l => l.isEmpty

/-- The SDK's `schema.ResourceDiff` for a script resource: the identifier and the
attributes of the prior state, the planned attributes, the flat keys of the
attribute diff in the order a range over them yields, and the attributes marked
as forcing a new resource. -/
structure ResourceDiff where
  id : String
  state : Attrs
  diff : Attrs
  attributes : List String
  forcedNewKeys : List String

/-- The method `rd.Id()` of a diff: the identifier in the prior state. -/
def ResourceDiff.Id (rd : ResourceDiff) : String := rd.id

/-- The method `rd.GetChange` of a diff. -/
def ResourceDiff.GetChange (rd : ResourceDiff) (key : String) : Value × Value :=
  (rd.state.Get key, rd.diff.Get key)

/-- The method `rd.HasChange` of a diff. -/
def ResourceDiff.HasChange (rd : ResourceDiff) (key : String) : Bool :=
  !((rd.GetChange key).1.equal (rd.GetChange key).2)

/-- The method `rd.GetOk` of a diff: the planned value, and whether it is set to
something other than the zero value. -/
def ResourceDiff.GetOk (rd : ResourceDiff) (key : String) : Value × Bool :=
  (rd.diff.Get key, !(rd.diff.Get key).isZero)

/-- The method `rd.GetChangedKeysPrefix`: the flat keys of the attribute diff that
start with the given text. -/
def ResourceDiff.GetChangedKeysPrefix (rd : ResourceDiff) (pre : String) : List String :=
  rd.attributes.filter (fun k => strings.HasPrefix k pre)

/-- The method `rd.ForceNew`: refused when the key has no change; otherwise the
attribute the key belongs to is recorded as forcing a new resource (`forcedNewKeys` is
a set: an attribute already recorded is not recorded twice). -/
def ResourceDiff.ForceNew (rd : ResourceDiff) (key : String) : ResourceDiff × Option error :=
  if !rd.HasChange key then (rd, some (fmt.Errorf ("ForceNew: No changes for " ++ key)))
  else if attributeOf key ∈ rd.forcedNewKeys then (rd, none)
  else ({ rd with forcedNewKeys := rd.forcedNewKeys ++ [attributeOf key] }, none)

/-! ## Diagnostics -/

/-- The severity of a diagnostic. -/
inductive Severity where
  | Error
  | Warning
deriving DecidableEq

/-- The SDK's `diag.Diagnostic`. -/
structure Diagnostic where
  severity : Severity
  summary : String
deriving DecidableEq

/-- The SDK's `diag.Diagnostics`; the empty list is the nil return of a handler. -/
abbrev Diagnostics : Type := List Diagnostic

/-- The SDK's `diag.FromErr`: one diagnostic of severity error, none for a nil error. -/
def diag.FromErr (err : Option error) : Diagnostics :=
  match err with
  | some e => [{ severity := .Error, summary := e.Error }]
  | none => []

/-- The struct `script`: the connection it runs on, working directory, environment,
interpreter, command body and optional standard input. -/
structure script (L : Type) where
  l : L
  workdir : String
  env : StringMap
  interpreter : List String
  body : String
  stdin : Option String

/-- A `uuid.UUID`: sixteen bytes. -/
structure UUID where
  bytes : Fin 16 → Fin 256

/-- What the handlers call outside this file: the executor behind `script.exec` and
the generator `uuid.NewRandom`, each a function of the remote world. -/
structure Externals (L W : Type) where
  exec : script L → W → Except error String × W
  NewRandom : W → Except error UUID × W

/-- The remote world together with the scripts executed so far, oldest first. -/
structure Host (L W : Type) where
  world : W
  executed : List (script L)

/-- The method `sc.exec(ctx)`: one run of the executor, recorded in `executed`. -/
def script.exec {L W : Type} (x : Externals L W) (sc : script L) (h : Host L W) :
    Except error String × Host L W :=
  ((x.exec sc h.world).1, { world := (x.exec sc h.world).2, executed := h.executed ++ [sc] })

/-- The call `uuid.NewRandom()`. -/
def uuid.NewRandom {L W : Type} (x : Externals L W) (h : Host L W) :
    Except error UUID × Host L W :=
  ((x.NewRandom h.world).1, { h with world := (x.NewRandom h.world).2 })

/-- Two lower-case hexadecimal digits of a byte (`hex.Encode`). -/
def hexByte (b : Fin 256) : String :=
  String.mk [Nat.digitChar (b.val / 16), Nat.digitChar (b.val % 16)]

/-- The method `UUID.String`: the form `xxxxxxxx-xxxx-xxxx-xxxx-xxxxxxxxxxxx`. -/
def UUID.String (u : UUID) : String :=
  hexByte (u.bytes 0) ++ hexByte (u.bytes 1) ++ hexByte (u.bytes 2) ++ hexByte (u.bytes 3)
    ++ "-" ++ hexByte (u.bytes 4) ++ hexByte (u.bytes 5)
    ++ "-" ++ hexByte (u.bytes 6) ++ hexByte (u.bytes 7)
    ++ "-" ++ hexByte (u.bytes 8) ++ hexByte (u.bytes 9)
    ++ "-" ++ hexByte (u.bytes 10) ++ hexByte (u.bytes 11) ++ hexByte (u.bytes 12)
    ++ hexByte (u.bytes 13) ++ hexByte (u.bytes 14) ++ hexByte (u.bytes 15)

/-! ## The handlers of `handlerScriptResource` -/

namespace handlerScriptResource

/-- The method `newScript`. The store is never nil here, so the guard on a nil `rd`
is not reached; `none` is the fault of indexing an empty `lifecycle_commands`. -/
def newScript {L : Type} (rd : ResourceData) (l : L) (attrLifeCycle : String) :
    Option (script L) :=
  match (cast.ToSlice (rd.Get attrScriptLifecycleCommands)).head? with
  | none => none
  | some lc =>
    let s : script L :=
      { l := l
        workdir := cast.ToString (rd.Get attrScriptWorkingDirectory)
        env := cast.ToStringMapString (rd.Get attrScriptEnvironment)
        interpreter := cast.ToStringSlice (rd.Get attrScriptInterpreter)
        body := (cast.ToStringMapString lc).index attrLifeCycle
        stdin := none }
    some { s with
      env := (cast.ToStringMapString (rd.Get attrScriptSensitiveEnvironment)).foldl
        (fun env k v => env.insert k v) s.env }

/-- The method `read`: run the read script and store its output. -/
def read {L W : Type} (x : Externals L W) (rd : ResourceData) (l : L) (h : Host L W) :
    Option (Option error × ResourceData × Host L W) :=
  match newScript rd l attrScriptLifecycleCommandRead with
  | none => none
  | some sc =>
    match sc.exec x h with
    | (.error err, h) => some (some err, rd, h)
    | (.ok res, h) =>
      match rd.Set attrScriptOutput (.str res) with
      | (rd, some err) => some (some err, rd, h)
      | (rd, none) => some (none, rd, h)

/-- The handler `Read`. -/
def Read {L W : Type} (x : Externals L W) (rd : ResourceData) (l : L) (h : Host L W) :
    Option (Diagnostics × ResourceData × Host L W) :=
  let old := cast.ToString (rd.Get attrScriptOutput)
  match read x rd l h with
  | none => none
  | some (err, rd, h) =>
    if errors.As err then
      let rd := (rd.Set attrScriptReadFailed (.bool true)).1
      let rd := (rd.Set attrScriptReadError (.str ((err.map error.Error).getD ""))).1
      some ([], rd, h)
    else
      let rd := (rd.Set attrScriptReadFailed (.bool false)).1
      let rd := (rd.Set attrScriptReadError (.str "")).1
      if err ≠ none then some (diag.FromErr err, rd, h)
      else
        let new := cast.ToString (rd.Get attrScriptOutput)
        match rd.Set attrScriptDirty (.bool (old != new)) with
        | (rd, some err) => some (diag.FromErr (some err), rd, h)
        | (rd, none) => some ([], rd, h)

/-- The handler `Create`. -/
def Create {L W : Type} (x : Externals L W) (rd : ResourceData) (l : L) (h : Host L W) :
    Option (Diagnostics × ResourceData × Host L W) :=
  match newScript rd l attrScriptLifecycleCommandCreate with
  | none => none
  | some sc =>
    match sc.exec x h with
    | (.error err, h) => some (diag.FromErr (some err), rd, h)
    | (.ok _, h) =>
      match read x rd l h with
      | none => none
      | some (some err, rd, h) => some (diag.FromErr (some err), rd, h)
      | some (none, rd, h) =>
        match uuid.NewRandom x h with
        | (.error err, h) => some (diag.FromErr (some err), rd, h)
        | (.ok id, h) => some ([], rd.SetId id.String, h)

/-- The loop body of `restoreOldResourceData` over the keys still to restore. -/
def restoreLoop (exceptMap : String → Bool) :
    List String → ResourceData → ResourceData × Option error
  | [], rd => (rd, none)
  | k :: ks, rd =>
    if exceptMap k then restoreLoop exceptMap ks rd
    else
      match rd.Set k (rd.GetChange k).1 with
      | (rd, some err) => (rd, some err)
      | (rd, none) => restoreLoop exceptMap ks rd

/-- The method `restoreOldResourceData`. -/
def restoreOldResourceData (rd : ResourceData) (except : List String) :
    ResourceData × Option error :=
  let exceptMap : String → Bool := fun k => decide (k ∈ except)
  let toRestore : List String :=
    [ attrScriptLifecycleCommands,
      attrScriptEnvironment,
      attrScriptSensitiveEnvironment,
      attrScriptInterpreter,
      attrScriptWorkingDirectory,
      attrScriptOutput,
      attrScriptDirty,
      attrScriptReadFailed,
      attrScriptReadError ]
  restoreLoop exceptMap toRestore rd

/-- The handler `Update`. -/
def Update {L W : Type} (x : Externals L W) (rd : ResourceData) (l : L) (h : Host L W) :
    Option (Diagnostics × ResourceData × Host L W) :=
  if rd.HasChange attrScriptLifecycleCommands then
    let rd := (restoreOldResourceData rd [attrScriptLifecycleCommands]).1
    some ([], rd, h)
  else
    match newScript rd l attrScriptLifecycleCommandUpdate with
    | none => none
    | some sc =>
      let oldOutput := cast.ToString (rd.Get attrScriptOutput)
      let sc := { sc with stdin := some oldOutput }
      match sc.exec x h with
      | (.error err, h) =>
        let rd := (restoreOldResourceData rd []).1
        some (diag.FromErr (some err), rd, h)
      | (.ok _, h) =>
        match read x rd l h with
        | none => none
        | some (some err, rd, h) => some (diag.FromErr (some err), rd, h)
        | some (none, rd, h) => some ([], rd, h)

/-- The handler `Delete`. -/
def Delete {L W : Type} (x : Externals L W) (rd : ResourceData) (l : L) (h : Host L W) :
    Option (Diagnostics × ResourceData × Host L W) :=
  match newScript rd l attrScriptLifecycleCommandDelete with
  | none => none
  | some sc =>
    match sc.exec x h with
    | (.error err, h) => some (diag.FromErr (some err), rd, h)
    | (.ok _, h) => some ([], rd, h)

/-- The message of the error `CustomizeDiff` returns for the keys in `forbidden`. -/
def forbiddenMessage (forbidden : List String) : String :=
  "update to `" ++ attrScriptLifecycleCommands
    ++ "` should not be combined with update to other arguments: "
    ++ strings.Join forbidden ","

/-- The second loop of `CustomizeDiff`, over the changed keys still to visit. -/
def forceNewLoop : List String → ResourceDiff → ResourceDiff × Option error
  | [], rd => (rd, none)
  | key :: keys, rd =>
    if strings.HasPrefix key attrScriptTriggers then forceNewLoop keys rd
    else
      let key :=
        if strings.HasPrefix key attrScriptEnvironment
            || strings.HasPrefix key attrScriptSensitiveEnvironment
            || strings.HasPrefix key attrScriptInterpreter
        then strings.Join (strings.Split key '.').dropLast "."
        else key
      match rd.ForceNew key with
      | (rd, some err) => (rd, some err)
      | (rd, none) => forceNewLoop keys rd

/-- The handler `CustomizeDiff`. -/
def CustomizeDiff (rd : ResourceDiff) : ResourceDiff × Option error :=
  if rd.Id = "" then (rd, none)
  else if rd.HasChange attrScriptLifecycleCommands then
    let forbidden : List String :=
      (rd.GetChangedKeysPrefix "").foldl
        (fun forbidden key =>
          if !strings.HasPrefix key attrScriptLifecycleCommands
              && !strings.HasPrefix key attrScriptReadError
              && !strings.HasPrefix key attrScriptReadFailed
          then forbidden ++ [key] else forbidden)
        []
    if forbidden.length > 0 then (rd, some (fmt.Errorf (forbiddenMessage forbidden)))
    else (rd, none)
  else if cast.ToBool (rd.GetChange attrScriptReadFailed).1 then
    ((rd.ForceNew attrScriptReadFailed).1, none)
  else if (rd.GetOk
      (attrScriptLifecycleCommands ++ ".0." ++ attrScriptLifecycleCommandUpdate)).2 then
    (rd, none)
  else forceNewLoop (rd.GetChangedKeysPrefix "") rd

end handlerScriptResource

/-! ## Sample data -/

/-- A remote world that plays back prepared outcomes: one per executed command and
one per generated identifier. -/
structure Scripted where
  outcomes : List (Except error String)
  uuids : List (Except error UUID)

/-- The externals over a `Scripted` world: each call consumes the next outcome. -/
def scripted : Externals Unit Scripted where
  exec _ w :=
    match w.outcomes with
    | r :: rest => (r, { w with outcomes := rest })
    | [] => (.error { msg := "no outcome prepared", isExit := false }, w)
  NewRandom w :=
    match w.uuids with
    | r :: rest => (r, { w with uuids := rest })
    | [] => (.error { msg := "no identifier prepared", isExit := false }, w)

/-- A host that has executed nothing yet and will play back the given outcomes. -/
def scriptedHost (outcomes : List (Except error String))
    (uuids : List (Except error UUID)) : Host Unit Scripted :=
  { world := { outcomes := outcomes, uuids := uuids }, executed := [] }

/-- The commands of the scenario `create = read = "echo -n hi"`, `delete = "echo -n"`. -/
def sampleCommands : LifecycleCommands :=
  { create := "echo -n hi", read := "echo -n hi", update := "", delete := "echo -n" }

/-- The same commands with an update body. -/
def sampleCommandsUpdate : LifecycleCommands :=
  { sampleCommands with update := "echo -n updated" }

/-- Stored attributes with the given commands and output, and nothing else set. -/
def sampleAttrs (lc : LifecycleCommands) (output : String) : Attrs :=
  { lifecycle_commands := [lc]
    triggers := ∅
    environment := ∅
    sensitive_environment := ∅
    interpreter := []
    working_directory := "."
    output := output
    dirty := false
    read_failed := false
    read_error := "" }

/-- The attributes of a resource that has no prior state: every value is the zero value. -/
def noAttrs : Attrs :=
  { lifecycle_commands := []
    triggers := ∅
    environment := ∅
    sensitive_environment := ∅
    interpreter := []
    working_directory := ""
    output := ""
    dirty := false
    read_failed := false
    read_error := "" }

/-- The store handed to `Create` for the sample commands: no identifier, no prior state. -/
def sampleNew : ResourceData :=
  { id := "", state := noAttrs, diff := sampleAttrs sampleCommands "", setWriter := [] }

/-- A generated identifier. -/
def sampleUUID : UUID := { bytes := fun i => ⟨(17 * (i.val + 1)) % 256, Nat.mod_lt _ (by decide)⟩ }

/-- A failure of the random source. -/
def sampleRandError : error := { msg := "unexpected EOF", isExit := false }

/-- The store handed to `Update` when only the command bodies were edited (an update
body was added) on a resource whose last read found drift: `dirty` is `true` in the
state and back at its default in the plan. -/
def sampleCommandsChanged : ResourceData :=
  { id := "id"
    state := { sampleAttrs sampleCommands "hi" with dirty := true }
    diff := sampleAttrs sampleCommandsUpdate "hi"
    setWriter := [] }

/-- The store handed to `Update` when the working directory moves from `.` to `/tmp`
on a resource with an update body and stored output `hi`. -/
def sampleWorkdirChanged : ResourceData :=
  { id := "id"
    state := sampleAttrs sampleCommandsUpdate "hi"
    diff := { sampleAttrs sampleCommandsUpdate "hi" with working_directory := "/tmp" }
    setWriter := [] }

/-- The update script `Update` builds from `sampleWorkdirChanged`. -/
def sampleUpdateScript : script Unit :=
  { l := (), workdir := "/tmp", env := ∅, interpreter := [], body := "echo -n updated",
    stdin := some "hi" }

/-- The read script `newScript` builds from `sampleWorkdirChanged`. -/
def sampleReadScript : script Unit :=
  { l := (), workdir := "/tmp", env := ∅, interpreter := [], body := "echo -n hi",
    stdin := none }

/-- A proposed diff that adds an update body and, in the same apply, moves the
working directory to `/tmp`. -/
def sampleDiffConflict : ResourceDiff :=
  { id := "id"
    state := sampleAttrs sampleCommands "hi"
    diff := { sampleAttrs sampleCommandsUpdate "hi" with working_directory := "/tmp" }
    attributes := ["lifecycle_commands.0.update", "working_directory"]
    forcedNewKeys := [] }

/-- A proposed diff that moves the working directory to `/tmp` on a resource with an
update body whose last read succeeded. -/
def sampleDiffWorkdir : ResourceDiff :=
  { id := "id"
    state := sampleAttrs sampleCommandsUpdate "hi"
    diff := { sampleAttrs sampleCommandsUpdate "hi" with working_directory := "/tmp" }
    attributes := ["working_directory"]
    forcedNewKeys := [] }

/-- A proposed diff on a resource whose last read failed (`read_failed` is `true` in
the state) and whose configuration itself sets `read_failed = true`, so `read_failed`
has no change; the working directory moves to `/tmp`. -/
def sampleDiffPinned (lc : LifecycleCommands) : ResourceDiff :=
  { id := "id"
    state := { sampleAttrs lc "hi" with read_failed := true, read_error := "exit status: 1" }
    diff := { sampleAttrs lc "hi" with read_failed := true, working_directory := "/tmp" }
    attributes := ["read_error", "working_directory"]
    forcedNewKeys := [] }

/-- The store handed to `Update` for the diff `sampleDiffPinned`. -/
def samplePinned (lc : LifecycleCommands) : ResourceData :=
  { id := "id"
    state := (sampleDiffPinned lc).state
    diff := (sampleDiffPinned lc).diff
    setWriter := [] }

/-- An environment with one variable whose name holds a dot. -/
def dottedEnv (v : String) : StringMap := (∅ : StringMap).insert "a.b" v

/-- A proposed diff, on a resource with no update body, that changes the value of the
environment variable `a.b` from `1` to `2`. -/
def sampleDiffDotted : ResourceDiff :=
  { id := "id"
    state := { sampleAttrs sampleCommands "hi" with environment := dottedEnv "1" }
    diff := { sampleAttrs sampleCommands "hi" with environment := dottedEnv "2" }
    attributes := ["environment.a.b"]
    forcedNewKeys := [] }

/-- A proposed diff for a resource that is not created yet: every configured attribute
is new, `lifecycle_commands` among them. -/
def sampleDiffNew : ResourceDiff :=
  { id := ""
    state := noAttrs
    diff := sampleAttrs sampleCommands ""
    attributes := ["lifecycle_commands.#", "lifecycle_commands.0.create",
      "lifecycle_commands.0.read", "lifecycle_commands.0.delete", "working_directory"]
    forcedNewKeys := [] }

/-- A store whose `environment` sets `A` and `B` and whose `sensitive_environment` sets
`A` again and `C`, with an interpreter and a working directory. -/
def sampleEnvStore : ResourceData :=
  ResourceData.ofState "id"
    { sampleAttrs sampleCommands "hi" with
      environment := ((∅ : StringMap).insert "A" "1").insert "B" "2"
      sensitive_environment := ((∅ : StringMap).insert "A" "9").insert "C" "3"
      interpreter := ["sh", "-c"]
      working_directory := "/srv" }

/-- The store `Create` hands back on the scenario of the specification. -/
def sampleCreated : ResourceData :=
  { sampleNew with id := sampleUUID.String, setWriter := [(attrScriptOutput, .str "hi")] }

/-- The store `Read` hands back when the stored output is `hi` and the read command
answers `bye`. -/
def sampleReadBye : ResourceData :=
  { ResourceData.ofState "id" (sampleAttrs sampleCommands "hi") with
    setWriter :=
      [(attrScriptDirty, .bool true), (attrScriptReadError, .str ""),
        (attrScriptReadFailed, .bool false), (attrScriptOutput, .str "bye")] }

/-- The script `newScript` builds from `sampleAttrs` for a body. -/
def sampleScript (body : String) : script Unit :=
  { l := (), workdir := ".", env := ∅, interpreter := [], body := body, stdin := none }

/-- An exit error of the remote command. -/
def sampleExitError : error := { msg := "\"exit 1\" exit status: 1", isExit := true }

theorem ResourceData.Get_set (i : String) (st df : Attrs) (k k' : String) (v : Value)
    (sw : List (String × Value)) :
    ({ id := i, state := st, diff := df, setWriter := (k', v) :: sw } : ResourceData).Get k
      = if k = k' then v
        else ({ id := i, state := st, diff := df, setWriter := sw } : ResourceData).Get k := by
  by_cases hk : k = k'
  · simp [ResourceData.Get, List.lookup, hk]
  · have hb : (k == k') = false := by simpa using hk
    simp [ResourceData.Get, List.lookup, hk, hb]

theorem ResourceData.Get_set_ne (rd : ResourceData) (i : String) (k k' : String) (v : Value)
    (hk : k ≠ k') :
    ({ rd with id := i, setWriter := (k', v) :: rd.setWriter } : ResourceData).Get k
      = rd.Get k := by
  have hb : (k == k') = false := by simpa using hk
  simp [ResourceData.Get, List.lookup, hb]

theorem ResourceData.Set_output (rd : ResourceData) (s : String) :
    rd.Set attrScriptOutput (.str s)
      = ({ rd with setWriter := (attrScriptOutput, .str s) :: rd.setWriter }, none) := rfl

theorem ResourceData.Set_dirty (rd : ResourceData) (b : Bool) :
    rd.Set attrScriptDirty (.bool b)
      = ({ rd with setWriter := (attrScriptDirty, .bool b) :: rd.setWriter }, none) := rfl

theorem ResourceData.Set_read_failed (rd : ResourceData) (b : Bool) :
    rd.Set attrScriptReadFailed (.bool b)
      = ({ rd with setWriter := (attrScriptReadFailed, .bool b) :: rd.setWriter }, none) := rfl

theorem ResourceData.Set_read_error (rd : ResourceData) (s : String) :
    rd.Set attrScriptReadError (.str s)
      = ({ rd with setWriter := (attrScriptReadError, .str s) :: rd.setWriter }, none) := rfl

theorem ResourceData.Get_ofState (id : String) (s : Attrs) (k : String) :
    (ResourceData.ofState id s).Get k = s.Get k := rfl

namespace handlerScriptResource

/-- The helper `read` when the executor succeeds: the output is stored. -/
theorem read_of_ok {L W : Type} (x : Externals L W) (rd : ResourceData) (l : L) (h : Host L W)
    (sc : script L) (N : String) (w : W)
    (hsc : newScript rd l attrScriptLifecycleCommandRead = some sc)
    (hexec : x.exec sc h.world = (.ok N, w)) :
    read x rd l h = some (none,
      { rd with setWriter := (attrScriptOutput, .str N) :: rd.setWriter },
      { world := w, executed := h.executed ++ [sc] }) := by
  simp [read, hsc, script.exec, hexec, ResourceData.Set_output]

/-- The helper `read` when the executor fails: the error is handed back, the store untouched. -/
theorem read_of_error {L W : Type} (x : Externals L W) (rd : ResourceData) (l : L) (h : Host L W)
    (sc : script L) (e : error) (w : W)
    (hsc : newScript rd l attrScriptLifecycleCommandRead = some sc)
    (hexec : x.exec sc h.world = (.error e, w)) :
    read x rd l h = some (some e, rd, { world := w, executed := h.executed ++ [sc] }) := by
  simp [read, hsc, script.exec, hexec]

/-! ## The handler `Read` -/

/-- The result of `Read` when the read command succeeds. -/
theorem Read_of_ok {L W : Type} (x : Externals L W) (rd : ResourceData) (l : L)
    (h : Host L W) (sc : script L) (N : String) (w : W)
    (hsc : newScript rd l attrScriptLifecycleCommandRead = some sc)
    (hexec : x.exec sc h.world = (.ok N, w)) :
    Read x rd l h = some ([],
      { rd with setWriter :=
          (attrScriptDirty, .bool (cast.ToString (rd.Get attrScriptOutput) != N))
            :: (attrScriptReadError, .str "") :: (attrScriptReadFailed, .bool false)
            :: (attrScriptOutput, .str N) :: rd.setWriter },
      { world := w, executed := h.executed ++ [sc] }) := by
  simp only [Read, read_of_ok x rd l h sc N w hsc hexec, errors.As, ResourceData.Set_read_failed,
    ResourceData.Set_read_error, ResourceData.Set_dirty]
  simp +decide [ResourceData.Get_set, cast.ToString]

/-- The result of `Read` when the read command fails with an exit error. -/
theorem Read_of_exit {L W : Type} (x : Externals L W) (rd : ResourceData) (l : L)
    (h : Host L W) (sc : script L) (e : error) (w : W)
    (hsc : newScript rd l attrScriptLifecycleCommandRead = some sc)
    (hexec : x.exec sc h.world = (.error e, w))
    (hexit : errors.As (some e) = true) :
    Read x rd l h = some ([],
      { rd with setWriter :=
          (attrScriptReadError, .str e.Error) :: (attrScriptReadFailed, .bool true)
            :: rd.setWriter },
      { world := w, executed := h.executed ++ [sc] }) := by
  simp only [Read, read_of_error x rd l h sc e w hsc hexec, hexit, ResourceData.Set_read_failed,
    ResourceData.Set_read_error]
  simp

/-- C1. When the read command succeeds with output `N` on a store whose output is `O`,
`Read` returns no diagnostic, has executed the read script once, and leaves
`output = N`, `dirty = (O != N)`, `read_failed = false` and `read_error = ""`. -/
theorem Read_success {L W : Type} (x : Externals L W) (rd : ResourceData) (l : L)
    (h : Host L W) (sc : script L) (N : String) (w : W)
    (hsc : newScript rd l attrScriptLifecycleCommandRead = some sc)
    (hexec : x.exec sc h.world = (.ok N, w)) :
    ∃ rd', Read x rd l h = some ([], rd', { world := w, executed := h.executed ++ [sc] })
      ∧ rd'.Get attrScriptOutput = .str N
      ∧ rd'.Get attrScriptDirty = .bool (cast.ToString (rd.Get attrScriptOutput) != N)
      ∧ rd'.Get attrScriptReadFailed = .bool false
      ∧ rd'.Get attrScriptReadError = .str "" := by
  refine ⟨_, Read_of_ok x rd l h sc N w hsc hexec, ?_⟩
  simp +decide [ResourceData.Get_set]

/-- The statement of C1 on the scenario of the specification: the stored output is
`hi`, the read command answers `bye`. -/
theorem Read_success_witness :
    newScript (ResourceData.ofState "id" (sampleAttrs sampleCommands "hi")) ()
        attrScriptLifecycleCommandRead = some (sampleScript "echo -n hi")
      ∧ scripted.exec (sampleScript "echo -n hi") (scriptedHost [.ok "bye"] []).world
        = (.ok "bye", { outcomes := [], uuids := [] })
      ∧ ∃ rd', Read scripted (ResourceData.ofState "id" (sampleAttrs sampleCommands "hi")) ()
            (scriptedHost [.ok "bye"] [])
          = some ([], rd', { world := { outcomes := [], uuids := [] },
                             executed := [] ++ [sampleScript "echo -n hi"] })
        ∧ rd'.Get attrScriptOutput = .str "bye"
        ∧ rd'.Get attrScriptDirty = .bool (cast.ToString
            ((ResourceData.ofState "id" (sampleAttrs sampleCommands "hi")).Get
              attrScriptOutput) != "bye")
        ∧ rd'.Get attrScriptReadFailed = .bool false
        ∧ rd'.Get attrScriptReadError = .str "" :=
  ⟨rfl, rfl, Read_success scripted _ () (scriptedHost [.ok "bye"] []) _ "bye" _ rfl rfl⟩

/-- C2. When the read command fails with a command-exit error `e`, `Read` returns no
diagnostic, sets `read_failed = true` and `read_error` to the message of `e` (so
`read_error` is non-empty when that message is), and leaves `output` and `dirty`
as they were before the call. -/
theorem Read_exit_error_absorbed {L W : Type} (x : Externals L W) (rd : ResourceData) (l : L)
    (h : Host L W) (sc : script L) (e : error) (w : W)
    (hsc : newScript rd l attrScriptLifecycleCommandRead = some sc)
    (hexec : x.exec sc h.world = (.error e, w))
    (hexit : errors.As (some e) = true) :
    ∃ rd', Read x rd l h = some ([], rd', { world := w, executed := h.executed ++ [sc] })
      ∧ rd'.Get attrScriptReadFailed = .bool true
      ∧ rd'.Get attrScriptReadError = .str e.Error
      ∧ (e.Error ≠ "" → cast.ToString (rd'.Get attrScriptReadError) ≠ "")
      ∧ rd'.Get attrScriptOutput = rd.Get attrScriptOutput
      ∧ rd'.Get attrScriptDirty = rd.Get attrScriptDirty := by
  refine ⟨_, Read_of_exit x rd l h sc e w hsc hexec hexit, ?_⟩
  simp +decide [ResourceData.Get_set, cast.ToString]

/-- The statement of C2 on a store with output `hi` whose read command exits with
status 1: the message is recorded and is not empty. -/
theorem Read_exit_error_absorbed_witness :
    newScript (ResourceData.ofState "id" (sampleAttrs sampleCommands "hi")) ()
        attrScriptLifecycleCommandRead = some (sampleScript "echo -n hi")
      ∧ scripted.exec (sampleScript "echo -n hi")
          (scriptedHost [.error sampleExitError] []).world
        = (.error sampleExitError, { outcomes := [], uuids := [] })
      ∧ errors.As (some sampleExitError) = true
      ∧ sampleExitError.Error ≠ ""
      ∧ ∃ rd', Read scripted (ResourceData.ofState "id" (sampleAttrs sampleCommands "hi")) ()
            (scriptedHost [.error sampleExitError] [])
          = some ([], rd', { world := { outcomes := [], uuids := [] },
                             executed := [] ++ [sampleScript "echo -n hi"] })
        ∧ rd'.Get attrScriptReadFailed = .bool true
        ∧ rd'.Get attrScriptReadError = .str sampleExitError.Error
        ∧ (sampleExitError.Error ≠ "" → cast.ToString (rd'.Get attrScriptReadError) ≠ "")
        ∧ rd'.Get attrScriptOutput
            = (ResourceData.ofState "id" (sampleAttrs sampleCommands "hi")).Get attrScriptOutput
        ∧ rd'.Get attrScriptDirty
            = (ResourceData.ofState "id" (sampleAttrs sampleCommands "hi")).Get attrScriptDirty :=
  ⟨rfl, rfl, rfl, by decide,
    Read_exit_error_absorbed scripted _ () (scriptedHost [.error sampleExitError] []) _
      sampleExitError _ rfl rfl rfl⟩

/-- The text of an identifier is never empty. -/
theorem UUID_String_ne_empty (u : UUID) : u.String ≠ "" := by
  intro hu
  have hlen := congrArg String.length hu
  simp [UUID.String, String.length_append, show "-".length = 1 from rfl] at hlen

/-- The result of `Create` when the create command fails: nothing else is executed
and the store is untouched. -/
theorem Create_of_error {L W : Type} (x : Externals L W) (rd : ResourceData) (l : L)
    (h : Host L W) (sc : script L) (e : error) (w : W)
    (hsc : newScript rd l attrScriptLifecycleCommandCreate = some sc)
    (hexec : x.exec sc h.world = (.error e, w)) :
    Create x rd l h
      = some (diag.FromErr (some e), rd, { world := w, executed := h.executed ++ [sc] }) := by
  simp [Create, hsc, script.exec, hexec]

/-- The result of `Create` when the create command and the read command succeed, up
to the generation of the identifier. -/
theorem Create_of_ok {L W : Type} (x : Externals L W) (rd : ResourceData) (l : L)
    (h : Host L W) (csc rsc : script L) (out N : String) (w₁ w₂ : W)
    (hcsc : newScript rd l attrScriptLifecycleCommandCreate = some csc)
    (hcreate : x.exec csc h.world = (.ok out, w₁))
    (hrsc : newScript rd l attrScriptLifecycleCommandRead = some rsc)
    (hread : x.exec rsc w₁ = (.ok N, w₂)) :
    Create x rd l h =
      match x.NewRandom w₂ with
      | (.error err, w₃) =>
        some (diag.FromErr (some err),
          { rd with setWriter := (attrScriptOutput, .str N) :: rd.setWriter },
          { world := w₃, executed := h.executed ++ [csc, rsc] })
      | (.ok id, w₃) =>
        some ([],
          { rd with id := id.String, setWriter := (attrScriptOutput, .str N) :: rd.setWriter },
          { world := w₃, executed := h.executed ++ [csc, rsc] }) := by
  have hr := read_of_ok x rd l { world := w₁, executed := h.executed ++ [csc] } rsc N w₂ hrsc hread
  simp only [Create, hcsc, script.exec, hcreate, hr, uuid.NewRandom]
  rcases x.NewRandom w₂ with ⟨r, w₃⟩
  cases r <;> simp [ResourceData.SetId]

/-- C4, as the code has it. For a store whose `dirty` and `read_failed` are at their
default `false`: if the create command succeeds, the read command run right after it
succeeds with output `N`, and the generation of the identifier succeeds, then
`Create` returns no diagnostic, has executed the create script and then the read
script, assigns the text of the generated identifier, which is not empty, and
leaves `output = N`, `dirty = false` and `read_failed = false`. -/
theorem Create_success {L W : Type} (x : Externals L W) (rd : ResourceData) (l : L)
    (h : Host L W) (csc rsc : script L) (out N : String) (w₁ w₂ w₃ : W) (id : UUID)
    (hcsc : newScript rd l attrScriptLifecycleCommandCreate = some csc)
    (hcreate : x.exec csc h.world = (.ok out, w₁))
    (hrsc : newScript rd l attrScriptLifecycleCommandRead = some rsc)
    (hread : x.exec rsc w₁ = (.ok N, w₂))
    (huuid : x.NewRandom w₂ = (.ok id, w₃))
    (hdirty : rd.Get attrScriptDirty = .bool false)
    (hfailed : rd.Get attrScriptReadFailed = .bool false) :
    ∃ rd', Create x rd l h
        = some ([], rd', { world := w₃, executed := h.executed ++ [csc, rsc] })
      ∧ rd'.Id = id.String
      ∧ rd'.Id ≠ ""
      ∧ rd'.Get attrScriptOutput = .str N
      ∧ rd'.Get attrScriptDirty = .bool false
      ∧ rd'.Get attrScriptReadFailed = .bool false := by
  refine ⟨{ rd with id := id.String, setWriter := (attrScriptOutput, .str N) :: rd.setWriter },
    ?_, rfl, UUID_String_ne_empty id, ?_, ?_, ?_⟩
  · rw [Create_of_ok x rd l h csc rsc out N w₁ w₂ hcsc hcreate hrsc hread, huuid]
  · simp [ResourceData.Get_set]
  · rw [← hdirty]
    exact ResourceData.Get_set_ne rd _ _ _ _ (by decide)
  · rw [← hfailed]
    exact ResourceData.Get_set_ne rd _ _ _ _ (by decide)

/-- The statement of C4 on the scenario of the specification: `create` and `read`
are `echo -n hi`, both succeed, an identifier is generated. -/
theorem Create_success_witness :
    newScript sampleNew () attrScriptLifecycleCommandCreate = some (sampleScript "echo -n hi")
      ∧ scripted.exec (sampleScript "echo -n hi")
          (scriptedHost [.ok "hi", .ok "hi"] [.ok sampleUUID]).world
        = (.ok "hi", { outcomes := [.ok "hi"], uuids := [.ok sampleUUID] })
      ∧ newScript sampleNew () attrScriptLifecycleCommandRead = some (sampleScript "echo -n hi")
      ∧ scripted.exec (sampleScript "echo -n hi")
          { outcomes := [.ok "hi"], uuids := [.ok sampleUUID] }
        = (.ok "hi", { outcomes := [], uuids := [.ok sampleUUID] })
      ∧ scripted.NewRandom { outcomes := [], uuids := [.ok sampleUUID] }
        = (.ok sampleUUID, { outcomes := [], uuids := [] })
      ∧ sampleNew.Get attrScriptDirty = .bool false
      ∧ sampleNew.Get attrScriptReadFailed = .bool false
      ∧ ∃ rd', Create scripted sampleNew ()
            (scriptedHost [.ok "hi", .ok "hi"] [.ok sampleUUID])
          = some ([], rd',
              { world := { outcomes := [], uuids := [] },
                executed := [] ++ [sampleScript "echo -n hi", sampleScript "echo -n hi"] })
        ∧ rd'.Id = sampleUUID.String
        ∧ rd'.Id ≠ ""
        ∧ rd'.Get attrScriptOutput = .str "hi"
        ∧ rd'.Get attrScriptDirty = .bool false
        ∧ rd'.Get attrScriptReadFailed = .bool false :=
  ⟨rfl, rfl, rfl, rfl, rfl, rfl, rfl,
    Create_success scripted sampleNew () (scriptedHost [.ok "hi", .ok "hi"] [.ok sampleUUID])
      _ _ "hi" "hi" _ _ _ sampleUUID rfl rfl rfl rfl rfl rfl rfl⟩

/-- C4 as stated fails when the identifier cannot be generated: on the scenario of the
specification the create command and the read command both succeed (the read with
output `hi`), `dirty` and `read_failed` are at their defaults, and yet `Create`
returns a diagnostic of severity error and leaves the identifier empty. -/
theorem Create_success_counterexample :
    newScript sampleNew () attrScriptLifecycleCommandCreate = some (sampleScript "echo -n hi")
      ∧ scripted.exec (sampleScript "echo -n hi")
          (scriptedHost [.ok "hi", .ok "hi"] [.error sampleRandError]).world
        = (.ok "hi", { outcomes := [.ok "hi"], uuids := [.error sampleRandError] })
      ∧ newScript sampleNew () attrScriptLifecycleCommandRead = some (sampleScript "echo -n hi")
      ∧ scripted.exec (sampleScript "echo -n hi")
          { outcomes := [.ok "hi"], uuids := [.error sampleRandError] }
        = (.ok "hi", { outcomes := [], uuids := [.error sampleRandError] })
      ∧ sampleNew.Get attrScriptDirty = .bool false
      ∧ sampleNew.Get attrScriptReadFailed = .bool false
      ∧ (Create scripted sampleNew ()
            (scriptedHost [.ok "hi", .ok "hi"] [.error sampleRandError])).map
          (fun r => (r.1, r.2.1.Id))
        = some ([{ severity := Severity.Error, summary := "unexpected EOF" }], "") :=
  ⟨rfl, rfl, rfl, rfl, rfl, rfl, rfl⟩

/-- C5. On a store with no identifier: if the create command fails, `Create` returns
the diagnostic of that failure, has executed the create script and nothing else (no
read script), and hands the store back as it was, the identifier still empty; and
whenever `Create` hands back a store with a non-empty identifier, the create
command was executed and succeeded. -/
theorem Create_identifier_only_after_create {L W : Type} (x : Externals L W)
    (rd : ResourceData) (l : L) (h : Host L W) (hid : rd.Id = "") :
    (∀ sc e w, newScript rd l attrScriptLifecycleCommandCreate = some sc →
        x.exec sc h.world = (.error e, w) →
        Create x rd l h
            = some ([{ severity := Severity.Error, summary := e.Error }], rd,
                { world := w, executed := h.executed ++ [sc] })
          ∧ rd.Id = "")
      ∧ (∀ d rd' h', Create x rd l h = some (d, rd', h') → rd'.Id ≠ "" →
          ∃ sc out, newScript rd l attrScriptLifecycleCommandCreate = some sc
            ∧ (x.exec sc h.world).1 = .ok out) := by
  refine ⟨fun sc e w hsc hexec => ⟨?_, hid⟩, fun d rd' h' hres hne => ?_⟩
  · rw [Create_of_error x rd l h sc e w hsc hexec]
    rfl
  · cases hsc : newScript rd l attrScriptLifecycleCommandCreate with
    | none => simp [Create, hsc] at hres
    | some sc =>
      rcases hexec : x.exec sc h.world with ⟨r, w⟩
      cases r with
      | error e =>
        rw [Create_of_error x rd l h sc e w hsc hexec] at hres
        simp only [Option.some.injEq, Prod.mk.injEq] at hres
        exact absurd (hres.2.1 ▸ hid) hne
      | ok out => exact ⟨sc, out, rfl, by rw [hexec]⟩

/-- The statement of C5 on the sample commands, at a create command that fails. -/
theorem Create_identifier_only_after_create_witness :
    sampleNew.Id = ""
      ∧ (∀ sc e w, newScript sampleNew () attrScriptLifecycleCommandCreate = some sc →
          scripted.exec sc (scriptedHost [.error sampleExitError] [.ok sampleUUID]).world
            = (.error e, w) →
          Create scripted sampleNew () (scriptedHost [.error sampleExitError] [.ok sampleUUID])
              = some ([{ severity := Severity.Error, summary := e.Error }], sampleNew,
                  { world := w, executed := [] ++ [sc] })
            ∧ sampleNew.Id = "")
      ∧ (∀ d rd' h',
          Create scripted sampleNew () (scriptedHost [.error sampleExitError] [.ok sampleUUID])
            = some (d, rd', h') →
          rd'.Id ≠ "" →
          ∃ sc out, newScript sampleNew () attrScriptLifecycleCommandCreate = some sc
            ∧ (scripted.exec sc
                (scriptedHost [.error sampleExitError] [.ok sampleUUID]).world).1 = .ok out) :=
  ⟨rfl, Create_identifier_only_after_create scripted sampleNew ()
    (scriptedHost [.error sampleExitError] [.ok sampleUUID]) rfl⟩

/-! ## The handler `Update` -/

/-- Go's `cmp.Equal` holds between a value and itself. -/
theorem Value.equal_self (v : Value) : v.equal v = true := by
  cases v <;> simp [Value.equal]

/-- The helper `restoreOldResourceData` with `lifecycle_commands` excepted: the other
eight restorable attributes are set to their values in the prior state. -/
theorem restoreOldResourceData_except (rd : ResourceData) :
    restoreOldResourceData rd [attrScriptLifecycleCommands]
      = ({ rd with setWriter :=
            (attrScriptReadError, .str rd.state.read_error)
              :: (attrScriptReadFailed, .bool rd.state.read_failed)
              :: (attrScriptDirty, .bool rd.state.dirty)
              :: (attrScriptOutput, .str rd.state.output)
              :: (attrScriptWorkingDirectory, .str rd.state.working_directory)
              :: (attrScriptInterpreter, .strs rd.state.interpreter)
              :: (attrScriptSensitiveEnvironment, .map rd.state.sensitive_environment)
              :: (attrScriptEnvironment, .map rd.state.environment)
              :: rd.setWriter }, none) := rfl

/-- The helper `restoreOldResourceData` with no exception: all nine restorable
attributes are set to their values in the prior state. -/
theorem restoreOldResourceData_all (rd : ResourceData) :
    restoreOldResourceData rd []
      = ({ rd with setWriter :=
            (attrScriptReadError, .str rd.state.read_error)
              :: (attrScriptReadFailed, .bool rd.state.read_failed)
              :: (attrScriptDirty, .bool rd.state.dirty)
              :: (attrScriptOutput, .str rd.state.output)
              :: (attrScriptWorkingDirectory, .str rd.state.working_directory)
              :: (attrScriptInterpreter, .strs rd.state.interpreter)
              :: (attrScriptSensitiveEnvironment, .map rd.state.sensitive_environment)
              :: (attrScriptEnvironment, .map rd.state.environment)
              :: (attrScriptLifecycleCommands, .blocks rd.state.lifecycle_commands)
              :: rd.setWriter }, none) := rfl

/-- In a store handed to `Update` the planned triggers are the triggers of the prior
state, as maps. -/
theorem UpdateCall_triggers (rd : ResourceData) (hcall : rd.UpdateCall) :
    (Value.map rd.diff.triggers).equal (.map rd.state.triggers) = true := by
  have hch := hcall.2 (attrScriptTriggers, ⟨.TypeMap, true⟩) (by simp [schemaScriptResource]) rfl
  have hget : rd.GetChange attrScriptTriggers
      = (.map rd.state.triggers, .map rd.diff.triggers) := rfl
  simp only [ResourceData.HasChange, hget, Value.equal, Bool.not_eq_false',
    decide_eq_true_eq] at hch
  simpa [Value.equal] using hch.symm

/-- After `restoreOldResourceData` with `lifecycle_commands` excepted, on a store
handed to `Update`, every attribute but `lifecycle_commands` reads as in the prior state. -/
theorem Get_restore_except (rd : ResourceData) (hcall : rd.UpdateCall) :
    ∀ p ∈ schemaScriptResource, p.1 ≠ attrScriptLifecycleCommands →
      ((restoreOldResourceData rd [attrScriptLifecycleCommands]).1.Get p.1).equal
        (rd.GetChange p.1).1 = true := by
  have htrig := UpdateCall_triggers rd hcall
  obtain ⟨i, st, df, sw⟩ := rd
  obtain rfl : sw = [] := hcall.1
  intro p hp hne
  rw [restoreOldResourceData_except]
  simp only [schemaScriptResource, List.mem_cons, List.mem_singleton, List.not_mem_nil,
    or_false] at hp
  rcases hp with rfl | rfl | rfl | rfl | rfl | rfl | rfl | rfl | rfl | rfl
  · exact absurd rfl hne
  · simpa +decide [ResourceData.Get_set, ResourceData.Get, ResourceData.GetChange, Attrs.Get]
      using htrig
  all_goals
    simp +decide [ResourceData.Get_set, ResourceData.GetChange, Attrs.Get, Value.equal_self]

/-- After `restoreOldResourceData` with no exception, on a store handed to `Update`,
every attribute reads as in the prior state. -/
theorem Get_restore_all (rd : ResourceData) (hcall : rd.UpdateCall) :
    ∀ p ∈ schemaScriptResource,
      ((restoreOldResourceData rd []).1.Get p.1).equal (rd.GetChange p.1).1 = true := by
  have htrig := UpdateCall_triggers rd hcall
  obtain ⟨i, st, df, sw⟩ := rd
  obtain rfl : sw = [] := hcall.1
  intro p hp
  rw [restoreOldResourceData_all]
  simp only [schemaScriptResource, List.mem_cons, List.mem_singleton, List.not_mem_nil,
    or_false] at hp
  rcases hp with rfl | rfl | rfl | rfl | rfl | rfl | rfl | rfl | rfl | rfl
  · simp +decide [ResourceData.Get_set, ResourceData.GetChange, Attrs.Get, Value.equal_self]
  · simpa +decide [ResourceData.Get_set, ResourceData.Get, ResourceData.GetChange, Attrs.Get]
      using htrig
  all_goals
    simp +decide [ResourceData.Get_set, ResourceData.GetChange, Attrs.Get, Value.equal_self]

/-- C6. On a store handed to `Update` in which `lifecycle_commands` has a change,
`Update` returns no diagnostic and leaves the host as it was (no command is
executed); afterwards `lifecycle_commands` reads as its new value and every other
attribute of the schema reads as its value before the change. -/
theorem Update_commands_changed {L W : Type} (x : Externals L W) (rd : ResourceData) (l : L)
    (h : Host L W) (hcall : rd.UpdateCall)
    (hchg : rd.HasChange attrScriptLifecycleCommands = true) :
    ∃ rd', Update x rd l h = some ([], rd', h)
      ∧ rd'.Get attrScriptLifecycleCommands = (rd.GetChange attrScriptLifecycleCommands).2
      ∧ ∀ p ∈ schemaScriptResource, p.1 ≠ attrScriptLifecycleCommands →
          (rd'.Get p.1).equal (rd.GetChange p.1).1 = true := by
  refine ⟨(restoreOldResourceData rd [attrScriptLifecycleCommands]).1, ?_, ?_,
    Get_restore_except rd hcall⟩
  · simp [Update, hchg]
  · obtain ⟨i, st, df, sw⟩ := rd
    obtain rfl : sw = [] := hcall.1
    rw [restoreOldResourceData_except]
    simp +decide only [ResourceData.Get_set, ResourceData.GetChange, if_false]
    rfl

/-- The statement of C6 on a store in which an update body was added while the state
records drift: nothing is executed and `dirty` reads `true` again afterwards. -/
theorem Update_commands_changed_witness :
    sampleCommandsChanged.UpdateCall
      ∧ sampleCommandsChanged.HasChange attrScriptLifecycleCommands = true
      ∧ ∃ rd', Update scripted sampleCommandsChanged () (scriptedHost [] []) =
            some ([], rd', scriptedHost [] [])
        ∧ rd'.Get attrScriptLifecycleCommands
            = (sampleCommandsChanged.GetChange attrScriptLifecycleCommands).2
        ∧ ∀ p ∈ schemaScriptResource, p.1 ≠ attrScriptLifecycleCommands →
            (rd'.Get p.1).equal (sampleCommandsChanged.GetChange p.1).1 = true :=
  ⟨⟨rfl, by decide⟩, by decide,
    Update_commands_changed scripted sampleCommandsChanged () (scriptedHost [] [])
      ⟨rfl, by decide⟩ (by decide)⟩

/-- The result of `Update` when the update command fails. -/
theorem Update_of_error {L W : Type} (x : Externals L W) (rd : ResourceData) (l : L)
    (h : Host L W) (sc : script L) (e : error) (w : W)
    (hunch : rd.HasChange attrScriptLifecycleCommands = false)
    (hsc : newScript rd l attrScriptLifecycleCommandUpdate = some sc)
    (hexec : x.exec { sc with stdin := some (cast.ToString (rd.Get attrScriptOutput)) } h.world
      = (.error e, w)) :
    Update x rd l h = some (diag.FromErr (some e), (restoreOldResourceData rd []).1,
      { world := w,
        executed := h.executed
          ++ [{ sc with stdin := some (cast.ToString (rd.Get attrScriptOutput)) }] }) := by
  simp [Update, hunch, hsc, script.exec, hexec]

/-- C8. On a store handed to `Update` in which `lifecycle_commands` has no change:
if the update command fails with error `e`, `Update` returns the diagnostic of `e`,
has executed the update script and nothing else, and afterwards every attribute of
the schema reads as its value before the change. -/
theorem Update_failure_restores {L W : Type} (x : Externals L W) (rd : ResourceData) (l : L)
    (h : Host L W) (sc : script L) (e : error) (w : W) (hcall : rd.UpdateCall)
    (hunch : rd.HasChange attrScriptLifecycleCommands = false)
    (hsc : newScript rd l attrScriptLifecycleCommandUpdate = some sc)
    (hexec : x.exec { sc with stdin := some (cast.ToString (rd.Get attrScriptOutput)) } h.world
      = (.error e, w)) :
    ∃ rd', Update x rd l h
        = some ([{ severity := Severity.Error, summary := e.Error }], rd',
            { world := w,
              executed := h.executed
                ++ [{ sc with stdin := some (cast.ToString (rd.Get attrScriptOutput)) }] })
      ∧ ∀ p ∈ schemaScriptResource, (rd'.Get p.1).equal (rd.GetChange p.1).1 = true :=
  ⟨(restoreOldResourceData rd []).1, Update_of_error x rd l h sc e w hunch hsc hexec,
    Get_restore_all rd hcall⟩

/-- The statement of C8 on a store whose working directory moves to `/tmp` and whose
update command exits with status 1: the working directory reads `.` again. -/
theorem Update_failure_restores_witness :
    sampleWorkdirChanged.UpdateCall
      ∧ sampleWorkdirChanged.HasChange attrScriptLifecycleCommands = false
      ∧ newScript sampleWorkdirChanged () attrScriptLifecycleCommandUpdate
          = some { sampleUpdateScript with stdin := none }
      ∧ scripted.exec sampleUpdateScript (scriptedHost [.error sampleExitError] []).world
          = (.error sampleExitError, { outcomes := [], uuids := [] })
      ∧ ∃ rd', Update scripted sampleWorkdirChanged () (scriptedHost [.error sampleExitError] [])
          = some ([{ severity := Severity.Error, summary := sampleExitError.Error }], rd',
              { world := { outcomes := [], uuids := [] },
                executed := [] ++ [sampleUpdateScript] })
        ∧ ∀ p ∈ schemaScriptResource,
            (rd'.Get p.1).equal (sampleWorkdirChanged.GetChange p.1).1 = true :=
  ⟨⟨rfl, by decide⟩, by decide, rfl, rfl,
    Update_failure_restores scripted sampleWorkdirChanged ()
      (scriptedHost [.error sampleExitError] []) { sampleUpdateScript with stdin := none }
      sampleExitError _ ⟨rfl, by decide⟩ (by decide) rfl rfl⟩

/-- Inserting the entries of a list with distinct keys one after the other: a key of
the list ends up with the list's value, any other key keeps the value it had. -/
theorem lookup_foldl_insert (es : List (Sigma fun _ : String => String)) (hnd : es.NodupKeys)
    (env : StringMap) (k : String) :
    (es.foldl (fun r a => r.insert a.1 a.2) env).lookup k
      = match es.dlookup k with
        | some v => some v
        | none => env.lookup k := by
  induction es generalizing env with
  | nil => simp
  | cons e t ih =>
    obtain ⟨hnot, ht⟩ := List.nodupKeys_cons.mp hnd
    rw [List.foldl_cons, ih ht]
    by_cases hk : k = e.1
    · subst hk
      have hnone : t.dlookup e.1 = none := List.dlookup_eq_none.mpr hnot
      obtain ⟨a, b⟩ := e
      simp [hnone, AList.lookup_insert]
    · have hcons : (e :: t).dlookup k = t.dlookup k := by
        obtain ⟨a, b⟩ := e
        exact List.dlookup_cons_ne _ _ hk
      rw [hcons, AList.lookup_insert_ne hk]

/-- The merge loop of `newScript`: a key of `sensitive_environment` carries the value
it has there, any other key the value it has in `environment`. -/
theorem lookup_merged_env (sens env : StringMap) (k : String) :
    (sens.foldl (fun env k v => env.insert k v) env).lookup k
      = match sens.lookup k with
        | some v => some v
        | none => env.lookup k :=
  lookup_foldl_insert sens.entries sens.nodupKeys env k

/-- The script `newScript` builds from a store on which nothing has been set and whose
planned `lifecycle_commands` starts with the block `lc`. -/
theorem newScript_of_fresh {L : Type} (rd : ResourceData) (l : L) (a : String)
    (lc : LifecycleCommands) (rest : List LifecycleCommands)
    (hfresh : rd.setWriter = []) (hlc : rd.diff.lifecycle_commands = lc :: rest) :
    newScript rd l a = some
      { l := l
        workdir := rd.diff.working_directory
        env := rd.diff.sensitive_environment.foldl (fun env k v => env.insert k v)
          rd.diff.environment
        interpreter := rd.diff.interpreter
        body := lc.toMap.index a
        stdin := none } := by
  obtain ⟨i, st, df, sw⟩ := rd
  simp only at hfresh hlc
  subst hfresh
  have h1 : (ResourceData.mk i st df []).Get attrScriptLifecycleCommands
      = .blocks df.lifecycle_commands := rfl
  have h2 : (ResourceData.mk i st df []).Get attrScriptWorkingDirectory
      = .str df.working_directory := rfl
  have h3 : (ResourceData.mk i st df []).Get attrScriptEnvironment
      = .map df.environment := rfl
  have h4 : (ResourceData.mk i st df []).Get attrScriptInterpreter
      = .strs df.interpreter := rfl
  have h5 : (ResourceData.mk i st df []).Get attrScriptSensitiveEnvironment
      = .map df.sensitive_environment := rfl
  simp [newScript, h1, h2, h3, h4, h5, hlc, cast.ToSlice, cast.ToString,
    cast.ToStringMapString, cast.ToStringSlice]

/-- The result of `Update` when the update command and the read command succeed. -/
theorem Update_of_ok {L W : Type} (x : Externals L W) (rd : ResourceData) (l : L)
    (h : Host L W) (usc rsc : script L) (out N : String) (w₁ w₂ : W)
    (hunch : rd.HasChange attrScriptLifecycleCommands = false)
    (husc : newScript rd l attrScriptLifecycleCommandUpdate = some usc)
    (hupd : x.exec { usc with stdin := some (cast.ToString (rd.Get attrScriptOutput)) }
      h.world = (.ok out, w₁))
    (hrsc : newScript rd l attrScriptLifecycleCommandRead = some rsc)
    (hread : x.exec rsc w₁ = (.ok N, w₂)) :
    Update x rd l h = some ([],
      { rd with setWriter := (attrScriptOutput, .str N) :: rd.setWriter },
      { world := w₂,
        executed := h.executed
          ++ [{ usc with stdin := some (cast.ToString (rd.Get attrScriptOutput)) }, rsc] }) := by
  have hr := read_of_ok x rd l
    { world := w₁,
      executed := h.executed
        ++ [{ usc with stdin := some (cast.ToString (rd.Get attrScriptOutput)) }] }
    rsc N w₂ hrsc hread
  simp [Update, hunch, husc, script.exec, hupd, hr]

/-- The result of `Update` when the update command succeeds and the read command fails. -/
theorem Update_of_read_error {L W : Type} (x : Externals L W) (rd : ResourceData) (l : L)
    (h : Host L W) (usc rsc : script L) (out : String) (e : error) (w₁ w₂ : W)
    (hunch : rd.HasChange attrScriptLifecycleCommands = false)
    (husc : newScript rd l attrScriptLifecycleCommandUpdate = some usc)
    (hupd : x.exec { usc with stdin := some (cast.ToString (rd.Get attrScriptOutput)) }
      h.world = (.ok out, w₁))
    (hrsc : newScript rd l attrScriptLifecycleCommandRead = some rsc)
    (hread : x.exec rsc w₁ = (.error e, w₂)) :
    Update x rd l h = some (diag.FromErr (some e), rd,
      { world := w₂,
        executed := h.executed
          ++ [{ usc with stdin := some (cast.ToString (rd.Get attrScriptOutput)) }, rsc] }) := by
  have hr := read_of_error x rd l
    { world := w₁,
      executed := h.executed
        ++ [{ usc with stdin := some (cast.ToString (rd.Get attrScriptOutput)) }] }
    rsc e w₂ hrsc hread
  simp [Update, hunch, husc, script.exec, hupd, hr]

/-- C7. On a store handed to `Update` (nothing set yet) in which `lifecycle_commands`
has no change and whose new configuration holds the block `lc`: the commands `Update`
executes are, first, the script `upd` with body `lc.update`, standard input the
stored output, and the working directory, interpreter, connection and merged
environment of the new configuration (a key of `sensitive_environment` carries its
value there, any other key its value in `environment`); and then, exactly when the
execution of `upd` succeeded, the read script `rsc` with body `lc.read` and no
standard input. Nothing else is executed. -/
theorem Update_runs_update_then_read {L W : Type} (x : Externals L W) (rd : ResourceData)
    (l : L) (h : Host L W) (lc : LifecycleCommands) (rest : List LifecycleCommands)
    (hfresh : rd.setWriter = [])
    (hunch : rd.HasChange attrScriptLifecycleCommands = false)
    (hlc : rd.diff.lifecycle_commands = lc :: rest) :
    ∃ upd rsc : script L,
      upd.body = lc.update
        ∧ upd.stdin = some (cast.ToString (rd.Get attrScriptOutput))
        ∧ cast.ToString (rd.Get attrScriptOutput) = rd.diff.output
        ∧ upd.workdir = rd.diff.working_directory
        ∧ upd.interpreter = rd.diff.interpreter
        ∧ upd.l = l
        ∧ (∀ k, upd.env.lookup k
            = match rd.diff.sensitive_environment.lookup k with
              | some v => some v
              | none => rd.diff.environment.lookup k)
        ∧ rsc.body = lc.read
        ∧ rsc.stdin = none
        ∧ ∃ d rd' h', Update x rd l h = some (d, rd', h')
          ∧ h'.executed = h.executed ++ upd ::
              (match (x.exec upd h.world).1 with
                | .ok _ => [rsc]
                | .error _ => []) := by
  have husc := newScript_of_fresh rd l attrScriptLifecycleCommandUpdate lc rest hfresh hlc
  have hrsc := newScript_of_fresh rd l attrScriptLifecycleCommandRead lc rest hfresh hlc
  have hout : cast.ToString (rd.Get attrScriptOutput) = rd.diff.output := by
    obtain ⟨i, st, df, sw⟩ := rd
    simp only at hfresh
    subst hfresh
    rfl
  refine ⟨{ l := l
            workdir := rd.diff.working_directory
            env := rd.diff.sensitive_environment.foldl (fun env k v => env.insert k v)
              rd.diff.environment
            interpreter := rd.diff.interpreter
            body := lc.toMap.index attrScriptLifecycleCommandUpdate
            stdin := some (cast.ToString (rd.Get attrScriptOutput)) },
          { l := l
            workdir := rd.diff.working_directory
            env := rd.diff.sensitive_environment.foldl (fun env k v => env.insert k v)
              rd.diff.environment
            interpreter := rd.diff.interpreter
            body := lc.toMap.index attrScriptLifecycleCommandRead
            stdin := none },
          rfl, rfl, hout, rfl, rfl, rfl, fun k => lookup_merged_env _ _ k, rfl, rfl, ?_⟩
  rcases hupd : x.exec
      { l := l
        workdir := rd.diff.working_directory
        env := rd.diff.sensitive_environment.foldl (fun env k v => env.insert k v)
          rd.diff.environment
        interpreter := rd.diff.interpreter
        body := lc.toMap.index attrScriptLifecycleCommandUpdate
        stdin := some (cast.ToString (rd.Get attrScriptOutput)) } h.world with ⟨r, w₁⟩
  cases r with
  | error e =>
    exact ⟨_, _, _, Update_of_error x rd l h _ e w₁ hunch husc hupd, rfl⟩
  | ok out =>
    rcases hread : x.exec
        { l := l
          workdir := rd.diff.working_directory
          env := rd.diff.sensitive_environment.foldl (fun env k v => env.insert k v)
            rd.diff.environment
          interpreter := rd.diff.interpreter
          body := lc.toMap.index attrScriptLifecycleCommandRead
          stdin := none } w₁ with ⟨r₂, w₂⟩
    cases r₂ with
    | error e =>
      exact ⟨_, _, _, Update_of_read_error x rd l h _ _ out e w₁ w₂ hunch husc hupd hrsc hread,
        rfl⟩
    | ok N =>
      exact ⟨_, _, _, Update_of_ok x rd l h _ _ out N w₁ w₂ hunch husc hupd hrsc hread, rfl⟩

/-- The statement of C7 on a store whose working directory moves to `/tmp`, with
stored output `hi`. -/
theorem Update_runs_update_then_read_witness :
    sampleWorkdirChanged.setWriter = []
      ∧ sampleWorkdirChanged.HasChange attrScriptLifecycleCommands = false
      ∧ sampleWorkdirChanged.diff.lifecycle_commands = sampleCommandsUpdate :: []
      ∧ ∃ upd rsc : script Unit,
        upd.body = sampleCommandsUpdate.update
          ∧ upd.stdin = some (cast.ToString (sampleWorkdirChanged.Get attrScriptOutput))
          ∧ cast.ToString (sampleWorkdirChanged.Get attrScriptOutput)
              = sampleWorkdirChanged.diff.output
          ∧ upd.workdir = sampleWorkdirChanged.diff.working_directory
          ∧ upd.interpreter = sampleWorkdirChanged.diff.interpreter
          ∧ upd.l = ()
          ∧ (∀ k, upd.env.lookup k
              = match sampleWorkdirChanged.diff.sensitive_environment.lookup k with
                | some v => some v
                | none => sampleWorkdirChanged.diff.environment.lookup k)
          ∧ rsc.body = sampleCommandsUpdate.read
          ∧ rsc.stdin = none
          ∧ ∃ d rd' h', Update scripted sampleWorkdirChanged ()
                (scriptedHost [.ok "", .ok "hi"] []) = some (d, rd', h')
            ∧ h'.executed = (scriptedHost [.ok "", .ok "hi"] []).executed ++ upd ::
                (match (scripted.exec upd (scriptedHost [.ok "", .ok "hi"] []).world).1 with
                  | .ok _ => [rsc]
                  | .error _ => []) :=
  ⟨rfl, by decide, rfl,
    Update_runs_update_then_read scripted sampleWorkdirChanged ()
      (scriptedHost [.ok "", .ok "hi"] []) sampleCommandsUpdate [] rfl (by decide) rfl⟩

/-- C9 as stated fails. The working directory moves to `/tmp`, `lifecycle_commands` is
unchanged, the stored output is `hi` and `dirty` is `false`; the update command
succeeds and the read command after it succeeds with output `bye`. `Update` returns
no diagnostic and stores `output = bye`, but `dirty` still reads `false`, not
`(hi != bye) = true`. -/
theorem Update_refresh_counterexample :
    sampleWorkdirChanged.UpdateCall
      ∧ sampleWorkdirChanged.HasChange attrScriptLifecycleCommands = false
      ∧ cast.ToString (sampleWorkdirChanged.Get attrScriptOutput) = "hi"
      ∧ scripted.exec sampleUpdateScript (scriptedHost [.ok "", .ok "bye"] []).world
          = (.ok "", { outcomes := [.ok "bye"], uuids := [] })
      ∧ scripted.exec sampleReadScript { outcomes := [.ok "bye"], uuids := [] }
          = (.ok "bye", { outcomes := [], uuids := [] })
      ∧ (Update scripted sampleWorkdirChanged () (scriptedHost [.ok "", .ok "bye"] [])).map
          (fun r => (r.1, r.2.1.Get attrScriptOutput, r.2.1.Get attrScriptDirty,
            r.2.2.executed))
        = some ([], .str "bye", .bool false, [sampleUpdateScript, sampleReadScript])
      ∧ Value.bool false ≠ Value.bool ("hi" != "bye") :=
  ⟨⟨rfl, by decide⟩, by decide, rfl, rfl, rfl, rfl, by decide⟩

/-- C9, as the code has it. On a store in which `lifecycle_commands` has no change: if
the update command succeeds and the read command after it succeeds with output `N`,
`Update` returns no diagnostic and afterwards `output = N`, while `dirty` reads as it
did when `Update` was entered: it is not recomputed from the two outputs. -/
theorem Update_success_stores_output {L W : Type} (x : Externals L W) (rd : ResourceData)
    (l : L) (h : Host L W) (usc rsc : script L) (out N : String) (w₁ w₂ : W)
    (hunch : rd.HasChange attrScriptLifecycleCommands = false)
    (husc : newScript rd l attrScriptLifecycleCommandUpdate = some usc)
    (hupd : x.exec { usc with stdin := some (cast.ToString (rd.Get attrScriptOutput)) }
      h.world = (.ok out, w₁))
    (hrsc : newScript rd l attrScriptLifecycleCommandRead = some rsc)
    (hread : x.exec rsc w₁ = (.ok N, w₂)) :
    ∃ rd', Update x rd l h = some ([], rd',
        { world := w₂,
          executed := h.executed
            ++ [{ usc with stdin := some (cast.ToString (rd.Get attrScriptOutput)) }, rsc] })
      ∧ rd'.Get attrScriptOutput = .str N
      ∧ rd'.Get attrScriptDirty = rd.Get attrScriptDirty := by
  refine ⟨_, Update_of_ok x rd l h usc rsc out N w₁ w₂ hunch husc hupd hrsc hread, ?_, ?_⟩
  · simp [ResourceData.Get_set]
  · exact ResourceData.Get_set_ne rd _ _ _ _ (by decide)

/-- The statement of the amended C9 on a store whose working directory moves to `/tmp`:
the read after the update answers `bye`. -/
theorem Update_success_stores_output_witness :
    sampleWorkdirChanged.HasChange attrScriptLifecycleCommands = false
      ∧ newScript sampleWorkdirChanged () attrScriptLifecycleCommandUpdate
          = some { sampleUpdateScript with stdin := none }
      ∧ scripted.exec sampleUpdateScript (scriptedHost [.ok "", .ok "bye"] []).world
          = (.ok "", { outcomes := [.ok "bye"], uuids := [] })
      ∧ newScript sampleWorkdirChanged () attrScriptLifecycleCommandRead = some sampleReadScript
      ∧ scripted.exec sampleReadScript { outcomes := [.ok "bye"], uuids := [] }
          = (.ok "bye", { outcomes := [], uuids := [] })
      ∧ ∃ rd', Update scripted sampleWorkdirChanged () (scriptedHost [.ok "", .ok "bye"] [])
          = some ([], rd',
              { world := { outcomes := [], uuids := [] },
                executed := [] ++ [sampleUpdateScript, sampleReadScript] })
        ∧ rd'.Get attrScriptOutput = .str "bye"
        ∧ rd'.Get attrScriptDirty = sampleWorkdirChanged.Get attrScriptDirty :=
  ⟨by decide, rfl, rfl, rfl, rfl,
    Update_success_stores_output scripted sampleWorkdirChanged ()
      (scriptedHost [.ok "", .ok "bye"] []) { sampleUpdateScript with stdin := none }
      sampleReadScript "" "bye" _ _ (by decide) rfl rfl rfl rfl⟩

/-! ## The handler `CustomizeDiff` -/

/-- With the empty text every flat key of the diff is returned. -/
theorem GetChangedKeysPrefix_empty (rd : ResourceDiff) :
    rd.GetChangedKeysPrefix "" = rd.attributes := by
  simp [ResourceDiff.GetChangedKeysPrefix, strings.HasPrefix]

/-- A flat key starts with the name of its attribute. -/
theorem data_attributeOf (key : String) :
    ∃ tail, key.data = (attributeOf key).data ++ tail := by
  have hjoin : ['.'].intercalate (key.data.splitOn '.') = key.data :=
    List.intercalate_splitOn key.data '.'
  cases hs : key.data.splitOn '.' with
  | nil => exact absurd hs (List.splitOnP_ne_nil _ _)
  | cons a t =>
    rw [hs] at hjoin
    have hattr : (attributeOf key).data = a := by
      simp [attributeOf, strings.Split, hs]
    cases t with
    | nil =>
      refine ⟨[], ?_⟩
      rw [hattr, ← hjoin]
      simp [List.intercalate]
    | cons b u =>
      refine ⟨'.' :: (['.'].intercalate (b :: u)), ?_⟩
      rw [hattr, ← hjoin]
      simp [List.intercalate, List.intersperse]

/-- On a flat key of a schema attribute, the three tests of the first loop of
`CustomizeDiff` find exactly the keys that belong neither to `lifecycle_commands` nor
to `read_error` nor to `read_failed`. -/
theorem forbidden_test_eq (key : String)
    (hkey : attributeOf key ∈ schemaScriptResource.map Prod.fst) :
    (!strings.HasPrefix key attrScriptLifecycleCommands
        && !strings.HasPrefix key attrScriptReadError
        && !strings.HasPrefix key attrScriptReadFailed)
      = decide (attributeOf key ∉
          [attrScriptLifecycleCommands, attrScriptReadFailed, attrScriptReadError]) := by
  obtain ⟨tail, htail⟩ := data_attributeOf key
  simp only [strings.HasPrefix, htail]
  generalize attributeOf key = a at hkey
  simp only [schemaScriptResource, List.map_cons, List.map_nil, List.mem_cons,
    List.mem_singleton, List.not_mem_nil, or_false] at hkey
  rcases hkey with rfl | rfl | rfl | rfl | rfl | rfl | rfl | rfl | rfl | rfl <;>
    first
    | rfl
    | simp [List.isPrefixOf, attrScriptLifecycleCommands, attrScriptReadFailed,
        attrScriptReadError]

/-- The first loop of `CustomizeDiff` collects, in order, the keys that pass its test. -/
theorem foldl_append_eq_filter (p : String → Bool) (keys acc : List String) :
    keys.foldl (fun forbidden key => if p key then forbidden ++ [key] else forbidden) acc
      = acc ++ keys.filter p := by
  induction keys generalizing acc with
  | nil => simp
  | cons k ks ih =>
    by_cases hp : p k <;> simp [ih, hp]

/-- The result of `CustomizeDiff` on a diff of an existing resource in which
`lifecycle_commands` has a change. -/
theorem CustomizeDiff_of_changed (rd : ResourceDiff) (hid : rd.Id ≠ "")
    (hchg : rd.HasChange attrScriptLifecycleCommands = true) :
    CustomizeDiff rd =
      if (rd.attributes.filter (fun key =>
            !strings.HasPrefix key attrScriptLifecycleCommands
              && !strings.HasPrefix key attrScriptReadError
              && !strings.HasPrefix key attrScriptReadFailed)).length > 0
      then (rd, some (fmt.Errorf (forbiddenMessage (rd.attributes.filter (fun key =>
            !strings.HasPrefix key attrScriptLifecycleCommands
              && !strings.HasPrefix key attrScriptReadError
              && !strings.HasPrefix key attrScriptReadFailed)))))
      else (rd, none) := by
  have hloop := foldl_append_eq_filter (fun key =>
    !strings.HasPrefix key attrScriptLifecycleCommands
      && !strings.HasPrefix key attrScriptReadError
      && !strings.HasPrefix key attrScriptReadFailed) rd.attributes []
  simp only [List.nil_append] at hloop
  simp only [CustomizeDiff, hid, hchg, if_false, if_true, GetChangedKeysPrefix_empty, hloop]

/-- C10. On a proposed diff of a resource that has an identifier, in which
`lifecycle_commands` has a change and whose flat keys all belong to attributes of the
schema: `CustomizeDiff` returns an error exactly when some changed key belongs to an
attribute other than `lifecycle_commands`, `read_failed` and `read_error`; the error
then carries the message whose list is exactly those keys, in the order of the diff,
joined by commas; and in every case the diff comes back as it was, so nothing is
marked for replacement. -/
theorem CustomizeDiff_commands_changed (rd : ResourceDiff) (hid : rd.Id ≠ "")
    (hchg : rd.HasChange attrScriptLifecycleCommands = true)
    (hkeys : ∀ key ∈ rd.GetChangedKeysPrefix "",
      attributeOf key ∈ schemaScriptResource.map Prod.fst) :
    ((CustomizeDiff rd).2 ≠ none ↔
        ∃ key ∈ rd.GetChangedKeysPrefix "",
          attributeOf key ∉
            [attrScriptLifecycleCommands, attrScriptReadFailed, attrScriptReadError])
      ∧ ((CustomizeDiff rd).2 ≠ none →
          (CustomizeDiff rd).2 = some (fmt.Errorf
            ("update to `lifecycle_commands` should not be combined with update to other "
              ++ "arguments: "
              ++ strings.Join ((rd.GetChangedKeysPrefix "").filter (fun key =>
                  decide (attributeOf key ∉ [attrScriptLifecycleCommands,
                    attrScriptReadFailed, attrScriptReadError]))) ",")))
      ∧ (CustomizeDiff rd).1 = rd
      ∧ ((CustomizeDiff rd).2 = none → (CustomizeDiff rd).1.forcedNewKeys = rd.forcedNewKeys) := by
  rw [GetChangedKeysPrefix_empty] at hkeys ⊢
  have hfilter : rd.attributes.filter (fun key =>
        !strings.HasPrefix key attrScriptLifecycleCommands
          && !strings.HasPrefix key attrScriptReadError
          && !strings.HasPrefix key attrScriptReadFailed)
      = rd.attributes.filter (fun key =>
        decide (attributeOf key ∉ [attrScriptLifecycleCommands,
          attrScriptReadFailed, attrScriptReadError])) :=
    List.filter_congr (fun key hk => forbidden_test_eq key (hkeys key hk))
  rw [CustomizeDiff_of_changed rd hid hchg, hfilter]
  by_cases hlen : (rd.attributes.filter (fun key =>
        decide (attributeOf key ∉ [attrScriptLifecycleCommands,
          attrScriptReadFailed, attrScriptReadError]))).length > 0
  · rw [if_pos hlen]
    refine ⟨⟨fun _ => ?_, fun _ => by simp⟩, fun _ => ?_, rfl, fun hnone => by simp at hnone⟩
    · obtain ⟨key, hmem⟩ := List.exists_mem_of_length_pos hlen
      rw [List.mem_filter] at hmem
      exact ⟨key, hmem.1, by simpa using hmem.2⟩
    · rfl
  · rw [if_neg hlen]
    refine ⟨⟨fun hne => absurd rfl hne, ?_⟩, fun hne => absurd rfl hne, rfl, fun _ => rfl⟩
    rintro ⟨key, hmem, hattr⟩
    exact absurd (List.length_pos_of_mem
      (List.mem_filter.mpr ⟨hmem, by simpa using hattr⟩)) hlen

/-- The statement of C10 on a diff that adds an update body and moves the working
directory in the same apply: the error names `working_directory`. -/
theorem CustomizeDiff_commands_changed_witness :
    sampleDiffConflict.Id ≠ ""
      ∧ sampleDiffConflict.HasChange attrScriptLifecycleCommands = true
      ∧ (∀ key ∈ sampleDiffConflict.GetChangedKeysPrefix "",
          attributeOf key ∈ schemaScriptResource.map Prod.fst)
      ∧ (CustomizeDiff sampleDiffConflict).2 = some (fmt.Errorf
          ("update to `lifecycle_commands` should not be combined with update to other "
            ++ "arguments: working_directory"))
      ∧ ((CustomizeDiff sampleDiffConflict).2 ≠ none ↔
          ∃ key ∈ sampleDiffConflict.GetChangedKeysPrefix "",
            attributeOf key ∉
              [attrScriptLifecycleCommands, attrScriptReadFailed, attrScriptReadError])
      ∧ ((CustomizeDiff sampleDiffConflict).2 ≠ none →
          (CustomizeDiff sampleDiffConflict).2 = some (fmt.Errorf
            ("update to `lifecycle_commands` should not be combined with update to other "
              ++ "arguments: "
              ++ strings.Join ((sampleDiffConflict.GetChangedKeysPrefix "").filter (fun key =>
                  decide (attributeOf key ∉ [attrScriptLifecycleCommands,
                    attrScriptReadFailed, attrScriptReadError]))) ",")))
      ∧ (CustomizeDiff sampleDiffConflict).1 = sampleDiffConflict
      ∧ ((CustomizeDiff sampleDiffConflict).2 = none →
          (CustomizeDiff sampleDiffConflict).1.forcedNewKeys
            = sampleDiffConflict.forcedNewKeys) :=
  ⟨by decide, by decide, by decide, by decide,
    CustomizeDiff_commands_changed sampleDiffConflict (by decide) (by decide) (by decide)⟩

/-- The planned update body, read by its flat key, when the planned
`lifecycle_commands` starts with the block `lc`. -/
theorem Attrs.Get_update_cons (a : Attrs) (lc : LifecycleCommands)
    (rest : List LifecycleCommands) (hlc : a.lifecycle_commands = lc :: rest) :
    a.Get (attrScriptLifecycleCommands ++ ".0." ++ attrScriptLifecycleCommandUpdate)
      = .str lc.update := by
  obtain ⟨lcs, t, e, se, it, wd, o, d, rf, re⟩ := a
  simp only at hlc
  subst hlc
  rfl

/-- The planned update body, read by its flat key, when there is no planned block. -/
theorem Attrs.Get_update_nil (a : Attrs) (hlc : a.lifecycle_commands = []) :
    a.Get (attrScriptLifecycleCommands ++ ".0." ++ attrScriptLifecycleCommandUpdate)
      = .null := by
  obtain ⟨lcs, t, e, se, it, wd, o, d, rf, re⟩ := a
  simp only at hlc
  subst hlc
  rfl

/-- The stored `read_failed`, as `CustomizeDiff` reads it. -/
theorem ToBool_GetChange_read_failed (rd : ResourceDiff) :
    cast.ToBool (rd.GetChange attrScriptReadFailed).1 = rd.state.read_failed := rfl

/-- The result of `CustomizeDiff` on a diff of an existing resource in which
`lifecycle_commands` has no change and the stored `read_failed` is `true`: the
outcome of `ForceNew` on `read_failed`, its error dropped. -/
theorem CustomizeDiff_of_read_failed (rd : ResourceDiff) (hid : rd.Id ≠ "")
    (hunch : rd.HasChange attrScriptLifecycleCommands = false)
    (hrf : rd.state.read_failed = true) :
    CustomizeDiff rd = ((rd.ForceNew attrScriptReadFailed).1, none) := by
  simp [CustomizeDiff, hid, hunch, ToBool_GetChange_read_failed, hrf]

/-- On such a diff in which `read_failed` itself has a change, `read_failed` is among
the attributes that force a new resource afterwards. -/
theorem CustomizeDiff_read_failed_changed (rd : ResourceDiff) (hid : rd.Id ≠ "")
    (hunch : rd.HasChange attrScriptLifecycleCommands = false)
    (hrf : rd.state.read_failed = true)
    (hchg : rd.HasChange attrScriptReadFailed = true) :
    (CustomizeDiff rd).2 = none
      ∧ attrScriptReadFailed ∈ (CustomizeDiff rd).1.forcedNewKeys := by
  rw [CustomizeDiff_of_read_failed rd hid hunch hrf]
  refine ⟨rfl, ?_⟩
  have hattr : attributeOf attrScriptReadFailed = attrScriptReadFailed := by decide
  by_cases hmem : attrScriptReadFailed ∈ rd.forcedNewKeys
  · simp [ResourceDiff.ForceNew, hchg, hattr, hmem]
  · simp [ResourceDiff.ForceNew, hchg, hattr, hmem]

/-- C11 at a failing input. The resource has an identifier, `lifecycle_commands` has no
change, the stored `read_failed` is `true` and the working directory changes; the
configuration sets `read_failed = true`, so `read_failed` has no change. `ForceNew`
on `read_failed` is refused, `CustomizeDiff` drops that error, returns no error and
marks nothing for replacement. -/
theorem CustomizeDiff_read_failed_unchanged_marks_nothing :
    (sampleDiffPinned sampleCommandsUpdate).Id ≠ ""
      ∧ (sampleDiffPinned sampleCommandsUpdate).HasChange attrScriptLifecycleCommands = false
      ∧ (sampleDiffPinned sampleCommandsUpdate).state.read_failed = true
      ∧ (sampleDiffPinned sampleCommandsUpdate).HasChange attrScriptWorkingDirectory = true
      ∧ ((sampleDiffPinned sampleCommandsUpdate).ForceNew attrScriptReadFailed).2
          = some (fmt.Errorf "ForceNew: No changes for read_failed")
      ∧ (CustomizeDiff (sampleDiffPinned sampleCommandsUpdate)).2 = none
      ∧ (CustomizeDiff (sampleDiffPinned sampleCommandsUpdate)).1.forcedNewKeys = [] := by
  decide

/-- C12. On a proposed diff of a resource that has an identifier, in which
`lifecycle_commands` has no change, the stored `read_failed` is `false` and the
planned block `lc` has a non-empty update body: `CustomizeDiff` returns no error
and hands the diff back as it was, whatever its changed keys, so nothing is marked
for replacement. -/
theorem CustomizeDiff_updatable (rd : ResourceDiff) (lc : LifecycleCommands)
    (rest : List LifecycleCommands) (hid : rd.Id ≠ "")
    (hunch : rd.HasChange attrScriptLifecycleCommands = false)
    (hrf : rd.state.read_failed = false)
    (hlc : rd.diff.lifecycle_commands = lc :: rest)
    (hupd : lc.update ≠ "") :
    (CustomizeDiff rd).2 = none
      ∧ (CustomizeDiff rd).1 = rd
      ∧ (CustomizeDiff rd).1.forcedNewKeys = rd.forcedNewKeys := by
  have hok : (rd.GetOk
      (attrScriptLifecycleCommands ++ ".0." ++ attrScriptLifecycleCommandUpdate)).2 = true := by
    simp [ResourceDiff.GetOk, Attrs.Get_update_cons rd.diff lc rest hlc, Value.isZero, hupd]
  simp [CustomizeDiff, hid, hunch, ToBool_GetChange_read_failed, hrf, hok]

/-- The statement of C12 on a diff that moves the working directory of a resource with
an update body. -/
theorem CustomizeDiff_updatable_witness :
    sampleDiffWorkdir.Id ≠ ""
      ∧ sampleDiffWorkdir.HasChange attrScriptLifecycleCommands = false
      ∧ sampleDiffWorkdir.state.read_failed = false
      ∧ sampleDiffWorkdir.diff.lifecycle_commands = sampleCommandsUpdate :: []
      ∧ sampleCommandsUpdate.update ≠ ""
      ∧ (CustomizeDiff sampleDiffWorkdir).2 = none
      ∧ (CustomizeDiff sampleDiffWorkdir).1 = sampleDiffWorkdir
      ∧ (CustomizeDiff sampleDiffWorkdir).1.forcedNewKeys = sampleDiffWorkdir.forcedNewKeys :=
  ⟨by decide, by decide, rfl, rfl, by decide,
    CustomizeDiff_updatable sampleDiffWorkdir sampleCommandsUpdate [] (by decide) (by decide)
      rfl rfl (by decide)⟩

/-- C13 at a failing input. The resource has an identifier and no update body,
`lifecycle_commands` has no change, the stored `read_failed` is `false`, and the value
of the environment variable `a.b` changes, so the changed key is `environment.a.b` and
`environment` has a change. The loop cuts the key at its last dot only and asks for
`environment.a`, which has no change: `CustomizeDiff` returns that error and
`environment` is not marked for replacement. -/
theorem CustomizeDiff_dotted_member_not_forced :
    sampleDiffDotted.Id ≠ ""
      ∧ sampleDiffDotted.HasChange attrScriptLifecycleCommands = false
      ∧ sampleDiffDotted.state.read_failed = false
      ∧ (sampleDiffDotted.GetOk
          (attrScriptLifecycleCommands ++ ".0." ++ attrScriptLifecycleCommandUpdate)).2 = false
      ∧ sampleDiffDotted.GetChangedKeysPrefix "" = ["environment.a.b"]
      ∧ sampleDiffDotted.HasChange attrScriptEnvironment = true
      ∧ strings.Join (strings.Split "environment.a.b" '.').dropLast "." = "environment.a"
      ∧ (CustomizeDiff sampleDiffDotted).2
          = some (fmt.Errorf "ForceNew: No changes for environment.a")
      ∧ (CustomizeDiff sampleDiffDotted).1.forcedNewKeys = [] := by
  decide

/-- C17. On a proposed diff of a resource that has no identifier, `CustomizeDiff`
returns no error and hands the diff back as it was, whatever its changed keys, so
nothing is marked for replacement. -/
theorem CustomizeDiff_no_identifier (rd : ResourceDiff) (hid : rd.Id = "") :
    (CustomizeDiff rd).2 = none
      ∧ (CustomizeDiff rd).1 = rd
      ∧ (CustomizeDiff rd).1.forcedNewKeys = rd.forcedNewKeys := by
  simp [CustomizeDiff, hid]

/-- The statement of C17 on the diff of a resource to be created, in which
`lifecycle_commands` and the working directory are both new. -/
theorem CustomizeDiff_no_identifier_witness :
    sampleDiffNew.Id = ""
      ∧ sampleDiffNew.HasChange attrScriptLifecycleCommands = true
      ∧ sampleDiffNew.HasChange attrScriptWorkingDirectory = true
      ∧ (CustomizeDiff sampleDiffNew).2 = none
      ∧ (CustomizeDiff sampleDiffNew).1 = sampleDiffNew
      ∧ (CustomizeDiff sampleDiffNew).1.forcedNewKeys = sampleDiffNew.forcedNewKeys :=
  ⟨rfl, by decide, by decide, CustomizeDiff_no_identifier sampleDiffNew rfl⟩

/-- A `ForceNew` never empties the set of attributes that force a new resource. -/
theorem ForceNew_keeps_nonempty (rd : ResourceDiff) (key : String)
    (hne : rd.forcedNewKeys ≠ []) : (rd.ForceNew key).1.forcedNewKeys ≠ [] := by
  unfold ResourceDiff.ForceNew
  split
  · exact hne
  · split
    · exact hne
    · simp

/-- A `ForceNew` that is not refused leaves at least one attribute marked. -/
theorem ForceNew_ok_nonempty (rd : ResourceDiff) (key : String)
    (hok : (rd.ForceNew key).2 = none) : (rd.ForceNew key).1.forcedNewKeys ≠ [] := by
  unfold ResourceDiff.ForceNew at hok ⊢
  split
  · rename_i hch
    simp [hch] at hok
  · split
    · rename_i hmem
      exact List.ne_nil_of_mem hmem
    · simp

/-- The second loop of `CustomizeDiff` never empties the set of marked attributes. -/
theorem forceNewLoop_keeps_nonempty (keys : List String) (rd : ResourceDiff)
    (hne : rd.forcedNewKeys ≠ []) : (forceNewLoop keys rd).1.forcedNewKeys ≠ [] := by
  induction keys generalizing rd with
  | nil => simpa [forceNewLoop] using hne
  | cons key keys ih =>
    unfold forceNewLoop
    split
    · exact ih rd hne
    · simp only
      split
      · rename_i rd' err hforce
        have hfst : rd' = (rd.ForceNew _).1 := (congrArg Prod.fst hforce).symm
        rw [hfst]
        exact ForceNew_keeps_nonempty rd _ hne
      · rename_i rd' hforce
        have hfst : rd' = (rd.ForceNew _).1 := (congrArg Prod.fst hforce).symm
        refine ih rd' ?_
        rw [hfst]
        exact ForceNew_keeps_nonempty rd _ hne

/-- When some changed key is not under `triggers` and the second loop of
`CustomizeDiff` ends without error, at least one attribute is marked. -/
theorem forceNewLoop_marks (keys : List String) (rd : ResourceDiff)
    (hkey : ∃ key ∈ keys, strings.HasPrefix key attrScriptTriggers = false)
    (hok : (forceNewLoop keys rd).2 = none) :
    (forceNewLoop keys rd).1.forcedNewKeys ≠ [] := by
  induction keys generalizing rd with
  | nil =>
    obtain ⟨key, hmem, _⟩ := hkey
    simp at hmem
  | cons key keys ih =>
    unfold forceNewLoop at hok ⊢
    split at hok
    · rename_i htrig
      rw [if_pos htrig]
      refine ih rd ?_ hok
      obtain ⟨k, hmem, hk⟩ := hkey
      rcases List.mem_cons.mp hmem with rfl | hmem'
      · rw [htrig] at hk
        exact absurd hk (by simp)
      · exact ⟨k, hmem', hk⟩
    · rename_i htrig
      rw [if_neg htrig]
      simp only at hok ⊢
      split at hok
      · simp at hok
      · rename_i rd' hforce
        have hfst : rd' = (rd.ForceNew _).1 := (congrArg Prod.fst hforce).symm
        have hsnd : (rd.ForceNew _).2 = none := congrArg Prod.snd hforce
        refine forceNewLoop_keeps_nonempty keys rd' ?_
        rw [hfst]
        exact ForceNew_ok_nonempty rd _ hsnd

/-- Where the classifier does keep `Update` away from a missing update body: on a
proposed diff of a resource that has an identifier, with nothing marked beforehand, in
which `lifecycle_commands` has no change, the stored `read_failed` is `false` and some
changed key is not under `triggers`, if `CustomizeDiff` returns no error and marks
nothing, then the planned `lifecycle_commands` holds a non-empty update body. -/
theorem CustomizeDiff_silent_has_update (rd : ResourceDiff) (hid : rd.Id ≠ "")
    (hunch : rd.HasChange attrScriptLifecycleCommands = false)
    (hrf : rd.state.read_failed = false)
    (hkey : ∃ key ∈ rd.GetChangedKeysPrefix "",
      strings.HasPrefix key attrScriptTriggers = false)
    (hok : (CustomizeDiff rd).2 = none)
    (hnone : (CustomizeDiff rd).1.forcedNewKeys = []) :
    ∃ lc rest, rd.diff.lifecycle_commands = lc :: rest ∧ lc.update ≠ "" := by
  by_cases hget : (rd.GetOk
      (attrScriptLifecycleCommands ++ ".0." ++ attrScriptLifecycleCommandUpdate)).2 = true
  · cases hlc : rd.diff.lifecycle_commands with
    | nil =>
      simp [ResourceDiff.GetOk, Attrs.Get_update_nil rd.diff hlc, Value.isZero] at hget
    | cons lc rest =>
      refine ⟨lc, rest, rfl, ?_⟩
      simpa [ResourceDiff.GetOk, Attrs.Get_update_cons rd.diff lc rest hlc, Value.isZero]
        using hget
  · have hloop : CustomizeDiff rd = forceNewLoop (rd.GetChangedKeysPrefix "") rd := by
      simp [CustomizeDiff, hid, hunch, ToBool_GetChange_read_failed, hrf, hget]
    rw [hloop] at hok hnone
    exact absurd hnone (forceNewLoop_marks _ rd hkey hok)

/-- C19 at a failing input. The resource has an identifier and no update body,
`lifecycle_commands` has no change and the working directory, a key outside
`triggers`, changes; the stored `read_failed` is `true` and the configuration sets
`read_failed = true` as well. `CustomizeDiff` returns no error and marks nothing for
replacement, and the `Update` that follows executes a script with an empty body. -/
theorem CustomizeDiff_lets_empty_update_through :
    (sampleDiffPinned sampleCommands).Id ≠ ""
      ∧ (sampleDiffPinned sampleCommands).HasChange attrScriptLifecycleCommands = false
      ∧ "working_directory" ∈ (sampleDiffPinned sampleCommands).GetChangedKeysPrefix ""
      ∧ strings.HasPrefix "working_directory" attrScriptTriggers = false
      ∧ (CustomizeDiff (sampleDiffPinned sampleCommands)).2 = none
      ∧ (CustomizeDiff (sampleDiffPinned sampleCommands)).1.forcedNewKeys = []
      ∧ (sampleDiffPinned sampleCommands).diff.lifecycle_commands = [sampleCommands]
      ∧ sampleCommands.update = ""
      ∧ ((sampleDiffPinned sampleCommands).GetOk
          (attrScriptLifecycleCommands ++ ".0." ++ attrScriptLifecycleCommandUpdate)).2 = false
      ∧ (Update scripted (samplePinned sampleCommands) ()
            (scriptedHost [.ok "", .ok "hi"] [])).map
          (fun r => (r.1, r.2.2.executed.map (fun sc => (sc.body, sc.stdin))))
        = some ([], [("", some "hi"), ("echo -n hi", none)]) := by
  refine ⟨by decide, by decide, by decide, by decide, by decide, by decide, rfl, rfl,
    by decide, rfl⟩

/-! ## The handler `Delete` -/

/-- C14. On a store on which nothing has been set and whose `lifecycle_commands` holds
the block `lc`: `Delete` executes exactly one script, with body `lc.delete` and no
standard input; the diagnostics it returns contain an error exactly when that
execution failed (and are then the diagnostic of the failure); in either case the
store is handed back as it was, attributes and identifier alike. -/
theorem Delete_runs_delete_once {L W : Type} (x : Externals L W) (rd : ResourceData) (l : L)
    (h : Host L W) (lc : LifecycleCommands) (rest : List LifecycleCommands)
    (hfresh : rd.setWriter = []) (hlc : rd.diff.lifecycle_commands = lc :: rest) :
    ∃ (sc : script L) (d : Diagnostics),
      newScript rd l attrScriptLifecycleCommandDelete = some sc
        ∧ sc.body = lc.delete
        ∧ sc.stdin = none
        ∧ Delete x rd l h
            = some (d, rd, { world := (x.exec sc h.world).2, executed := h.executed ++ [sc] })
        ∧ ((∃ dg ∈ d, dg.severity = Severity.Error) ↔ ∃ e, (x.exec sc h.world).1 = .error e)
        ∧ (∀ e, (x.exec sc h.world).1 = .error e →
            d = [{ severity := Severity.Error, summary := e.Error }]) := by
  have hsc := newScript_of_fresh rd l attrScriptLifecycleCommandDelete lc rest hfresh hlc
  rcases hexec : x.exec
      { l := l
        workdir := rd.diff.working_directory
        env := rd.diff.sensitive_environment.foldl (fun env k v => env.insert k v)
          rd.diff.environment
        interpreter := rd.diff.interpreter
        body := lc.toMap.index attrScriptLifecycleCommandDelete
        stdin := none } h.world with ⟨r, w⟩
  cases r with
  | error e =>
    refine ⟨_, diag.FromErr (some e), hsc, rfl, rfl, ?_, ?_, ?_⟩
    · simp [Delete, hsc, script.exec, hexec]
    · simp [hexec, diag.FromErr]
    · intro e' he'
      rw [hexec] at he'
      simp only [Except.error.injEq] at he'
      subst he'
      rfl
  | ok out =>
    refine ⟨_, [], hsc, rfl, rfl, ?_, ?_, ?_⟩
    · simp [Delete, hsc, script.exec, hexec]
    · simp [hexec]
    · intro e' he'
      rw [hexec] at he'
      simp at he'

/-- The statement of C14 on the sample commands, at a delete command that fails. -/
theorem Delete_runs_delete_once_witness :
    (ResourceData.ofState "id" (sampleAttrs sampleCommands "hi")).setWriter = []
      ∧ (ResourceData.ofState "id" (sampleAttrs sampleCommands "hi")).diff.lifecycle_commands
          = sampleCommands :: []
      ∧ (Delete scripted (ResourceData.ofState "id" (sampleAttrs sampleCommands "hi")) ()
            (scriptedHost [.error sampleExitError] [])).map (fun r => (r.1, r.2.2.executed))
          = some ([{ severity := Severity.Error, summary := sampleExitError.Error }],
              [sampleScript "echo -n"])
      ∧ ∃ (sc : script Unit) (d : Diagnostics),
        newScript (ResourceData.ofState "id" (sampleAttrs sampleCommands "hi")) ()
            attrScriptLifecycleCommandDelete = some sc
          ∧ sc.body = sampleCommands.delete
          ∧ sc.stdin = none
          ∧ Delete scripted (ResourceData.ofState "id" (sampleAttrs sampleCommands "hi")) ()
              (scriptedHost [.error sampleExitError] [])
            = some (d, ResourceData.ofState "id" (sampleAttrs sampleCommands "hi"),
                { world := (scripted.exec sc (scriptedHost [.error sampleExitError] []).world).2,
                  executed := (scriptedHost [.error sampleExitError] []).executed ++ [sc] })
          ∧ ((∃ dg ∈ d, dg.severity = Severity.Error)
              ↔ ∃ e, (scripted.exec sc
                  (scriptedHost [.error sampleExitError] []).world).1 = .error e)
          ∧ (∀ e, (scripted.exec sc (scriptedHost [.error sampleExitError] []).world).1
                = .error e →
              d = [{ severity := Severity.Error, summary := e.Error }]) :=
  ⟨rfl, rfl, rfl,
    Delete_runs_delete_once scripted _ () (scriptedHost [.error sampleExitError] [])
      sampleCommands [] rfl rfl⟩

/-! ## The builder `newScript` -/

/-- C16. On a store on which nothing has been set and whose `lifecycle_commands` is the
one block `lc`, for each of the four phases: `newScript` builds a script whose
environment holds, for every key, the value of `sensitive_environment` when the key
is there and else the value of `environment` (and no other key); whose working
directory, interpreter and connection are those of the resource; which has no
standard input; and whose body is the command of the block for that phase. -/
theorem newScript_builds {L : Type} (rd : ResourceData) (l : L) (lc : LifecycleCommands)
    (a : String) (hfresh : rd.setWriter = []) (hlc : rd.diff.lifecycle_commands = [lc])
    (ha : a ∈ [attrScriptLifecycleCommandCreate, attrScriptLifecycleCommandRead,
      attrScriptLifecycleCommandUpdate, attrScriptLifecycleCommandDelete]) :
    ∃ sc : script L, newScript rd l a = some sc
      ∧ (∀ k, sc.env.lookup k
          = match rd.diff.sensitive_environment.lookup k with
            | some v => some v
            | none => rd.diff.environment.lookup k)
      ∧ sc.workdir = rd.diff.working_directory
      ∧ sc.interpreter = rd.diff.interpreter
      ∧ sc.l = l
      ∧ sc.stdin = none
      ∧ sc.body =
          (if a = attrScriptLifecycleCommandCreate then lc.create
           else if a = attrScriptLifecycleCommandRead then lc.read
           else if a = attrScriptLifecycleCommandUpdate then lc.update
           else lc.delete) := by
  refine ⟨_, newScript_of_fresh rd l a lc [] hfresh hlc,
    fun k => lookup_merged_env _ _ k, rfl, rfl, rfl, rfl, ?_⟩
  simp only [List.mem_cons, List.mem_singleton, List.not_mem_nil, or_false] at ha
  rcases ha with rfl | rfl | rfl | rfl <;> rfl

/-- The statement of C16 for the update phase of a store in which `A` is set in both
environments: `A` carries the sensitive value, `B` and `C` their only value, and
the body is empty because no update command is configured. -/
theorem newScript_builds_witness :
    sampleEnvStore.setWriter = []
      ∧ sampleEnvStore.diff.lifecycle_commands = [sampleCommands]
      ∧ attrScriptLifecycleCommandUpdate ∈ [attrScriptLifecycleCommandCreate,
          attrScriptLifecycleCommandRead, attrScriptLifecycleCommandUpdate,
          attrScriptLifecycleCommandDelete]
      ∧ (newScript sampleEnvStore () attrScriptLifecycleCommandUpdate).map
          (fun sc => (sc.env.lookup "A", sc.env.lookup "B", sc.env.lookup "C",
            sc.env.lookup "D", sc.body))
        = some (some "9", some "2", some "3", none, "")
      ∧ ∃ sc : script Unit, newScript sampleEnvStore () attrScriptLifecycleCommandUpdate = some sc
        ∧ (∀ k, sc.env.lookup k
            = match sampleEnvStore.diff.sensitive_environment.lookup k with
              | some v => some v
              | none => sampleEnvStore.diff.environment.lookup k)
        ∧ sc.workdir = sampleEnvStore.diff.working_directory
        ∧ sc.interpreter = sampleEnvStore.diff.interpreter
        ∧ sc.l = ()
        ∧ sc.stdin = none
        ∧ sc.body =
            (if attrScriptLifecycleCommandUpdate = attrScriptLifecycleCommandCreate
              then sampleCommands.create
             else if attrScriptLifecycleCommandUpdate = attrScriptLifecycleCommandRead
              then sampleCommands.read
             else if attrScriptLifecycleCommandUpdate = attrScriptLifecycleCommandUpdate
              then sampleCommands.update
             else sampleCommands.delete) :=
  ⟨rfl, rfl, by decide, by decide,
    newScript_builds sampleEnvStore () sampleCommands attrScriptLifecycleCommandUpdate rfl rfl
      (by decide)⟩

/-! ## Reads that fail -/

/-- The result of `Create` when the create command succeeds and the read command
after it fails. -/
theorem Create_of_read_error {L W : Type} (x : Externals L W) (rd : ResourceData) (l : L)
    (h : Host L W) (csc rsc : script L) (out : String) (e : error) (w₁ w₂ : W)
    (hcsc : newScript rd l attrScriptLifecycleCommandCreate = some csc)
    (hcreate : x.exec csc h.world = (.ok out, w₁))
    (hrsc : newScript rd l attrScriptLifecycleCommandRead = some rsc)
    (hread : x.exec rsc w₁ = (.error e, w₂)) :
    Create x rd l h = some (diag.FromErr (some e), rd,
      { world := w₂, executed := h.executed ++ [csc, rsc] }) := by
  have hr := read_of_error x rd l { world := w₁, executed := h.executed ++ [csc] } rsc e w₂
    hrsc hread
  simp [Create, hcsc, script.exec, hcreate, hr]

/-- C20. The read that follows the command of `Create` and of `Update` is never
absorbed. When the create command succeeds and the read command after it fails
with any error `e` (an exit error or not), `Create` returns the diagnostic of `e`
and hands the store back as it was: `read_failed`, `read_error`, `output` and
`dirty` are unchanged and the identifier is the one it had, so none is assigned.
When `lifecycle_commands` has no change, the update command succeeds and the read
command after it fails with any error `e`, `Update` returns the diagnostic of `e`
and hands the store back as it was: nothing is set, so the attributes are not
restored to their values before the change. -/
theorem followup_read_failure_is_fatal {L W : Type} (x : Externals L W) (rd : ResourceData)
    (l : L) (h : Host L W) (rsc : script L) (e : error) (w₁ w₂ : W)
    (hrsc : newScript rd l attrScriptLifecycleCommandRead = some rsc)
    (hread : x.exec rsc w₁ = (.error e, w₂)) :
    (∀ csc out, newScript rd l attrScriptLifecycleCommandCreate = some csc →
        x.exec csc h.world = (.ok out, w₁) →
        Create x rd l h = some ([{ severity := Severity.Error, summary := e.Error }], rd,
          { world := w₂, executed := h.executed ++ [csc, rsc] }))
      ∧ (∀ usc out, rd.HasChange attrScriptLifecycleCommands = false →
          newScript rd l attrScriptLifecycleCommandUpdate = some usc →
          x.exec { usc with stdin := some (cast.ToString (rd.Get attrScriptOutput)) } h.world
            = (.ok out, w₁) →
          Update x rd l h = some ([{ severity := Severity.Error, summary := e.Error }], rd,
            { world := w₂,
              executed := h.executed
                ++ [{ usc with stdin := some (cast.ToString (rd.Get attrScriptOutput)) },
                    rsc] })) := by
  refine ⟨fun csc out hcsc hcreate => ?_, fun usc out hunch husc hupd => ?_⟩
  · rw [Create_of_read_error x rd l h csc rsc out e w₁ w₂ hcsc hcreate hrsc hread]
    rfl
  · rw [Update_of_read_error x rd l h usc rsc out e w₁ w₂ hunch husc hupd hrsc hread]
    rfl

/-- The statement of C20 on a store whose working directory moves to `/tmp`, with a
read command that exits with status 1 after the command before it succeeded; and
the same outcome for `Create` on a resource that is not created yet: no identifier,
`read_failed` still `false`. After `Update` the working directory reads `/tmp`, not
its value `.` before the change. -/
theorem followup_read_failure_is_fatal_witness :
    newScript sampleWorkdirChanged () attrScriptLifecycleCommandRead = some sampleReadScript
      ∧ scripted.exec sampleReadScript { outcomes := [.error sampleExitError], uuids := [] }
          = (.error sampleExitError, { outcomes := [], uuids := [] })
      ∧ errors.As (some sampleExitError) = true
      ∧ (Create scripted sampleNew () (scriptedHost [.ok "", .error sampleExitError]
            [.ok sampleUUID])).map
          (fun r => (r.1, r.2.1.Id, r.2.1.Get attrScriptReadFailed,
            r.2.1.Get attrScriptReadError, r.2.2.executed.map (fun sc => sc.body)))
        = some ([{ severity := Severity.Error, summary := sampleExitError.Error }], "",
            .bool false, .str "", ["echo -n hi", "echo -n hi"])
      ∧ (Update scripted sampleWorkdirChanged () (scriptedHost [.ok "", .error sampleExitError]
            [])).map
          (fun r => (r.1, r.2.1.Get attrScriptWorkingDirectory,
            r.2.1.Get attrScriptReadFailed))
        = some ([{ severity := Severity.Error, summary := sampleExitError.Error }],
            .str "/tmp", .bool false)
      ∧ (sampleWorkdirChanged.GetChange attrScriptWorkingDirectory).1 = .str "."
      ∧ (∀ csc out,
          newScript sampleWorkdirChanged () attrScriptLifecycleCommandCreate = some csc →
          scripted.exec csc (scriptedHost [.ok "", .error sampleExitError] []).world
            = (.ok out, { outcomes := [.error sampleExitError], uuids := [] }) →
          Create scripted sampleWorkdirChanged () (scriptedHost [.ok "", .error sampleExitError] [])
            = some ([{ severity := Severity.Error, summary := sampleExitError.Error }],
                sampleWorkdirChanged,
                { world := { outcomes := [], uuids := [] },
                  executed := (scriptedHost [.ok "", .error sampleExitError] []).executed
                    ++ [csc, sampleReadScript] }))
      ∧ (∀ usc out, sampleWorkdirChanged.HasChange attrScriptLifecycleCommands = false →
          newScript sampleWorkdirChanged () attrScriptLifecycleCommandUpdate = some usc →
          scripted.exec
              { usc with
                stdin := some (cast.ToString (sampleWorkdirChanged.Get attrScriptOutput)) }
              (scriptedHost [.ok "", .error sampleExitError] []).world
            = (.ok out, { outcomes := [.error sampleExitError], uuids := [] }) →
          Update scripted sampleWorkdirChanged () (scriptedHost [.ok "", .error sampleExitError] [])
            = some ([{ severity := Severity.Error, summary := sampleExitError.Error }],
                sampleWorkdirChanged,
                { world := { outcomes := [], uuids := [] },
                  executed := (scriptedHost [.ok "", .error sampleExitError] []).executed
                    ++ [{ usc with
                          stdin := some
                            (cast.ToString (sampleWorkdirChanged.Get attrScriptOutput)) },
                        sampleReadScript] })) :=
  ⟨rfl, rfl, rfl, rfl, rfl, rfl,
    followup_read_failure_is_fatal scripted sampleWorkdirChanged ()
      (scriptedHost [.ok "", .error sampleExitError] []) sampleReadScript sampleExitError
      { outcomes := [.error sampleExitError], uuids := [] } { outcomes := [], uuids := [] }
      rfl rfl⟩

/-! ## A read after a successful operation -/

/-- The output the next `Read` starts from is the output the handler left. -/
theorem next_Get_output (rd : ResourceData) :
    rd.next.Get attrScriptOutput = .str (cast.ToString (rd.Get attrScriptOutput)) := rfl

/-- A `Read` whose read command answers the output already stored leaves that output
and sets `dirty = false`. -/
theorem Read_same_output {L W : Type} (x : Externals L W) (rd : ResourceData) (l : L)
    (h : Host L W) (sc : script L) (N : String) (w : W)
    (hstored : rd.Get attrScriptOutput = .str N)
    (hsc : newScript rd l attrScriptLifecycleCommandRead = some sc)
    (hexec : x.exec sc h.world = (.ok N, w)) :
    ∃ rd', Read x rd l h = some ([], rd', { world := w, executed := h.executed ++ [sc] })
      ∧ rd'.Get attrScriptOutput = .str N
      ∧ rd'.Get attrScriptDirty = .bool false := by
  refine ⟨_, Read_of_ok x rd l h sc N w hsc hexec, ?_, ?_⟩
  · simp +decide [ResourceData.Get_set]
  · simp +decide [ResourceData.Get_set, hstored, cast.ToString]

/-- C15. Let `rd₁` be the store handed back without diagnostic by a `Read` whose read
command answered `N`, or by a `Create` whose create command succeeded and whose
read command answered `N`. If the read command of the next `Read`, run on the
state persisted from `rd₁`, answers `N` again, that `Read` returns no diagnostic
and leaves `output = N` and `dirty = false`. -/
theorem Read_after_success_not_dirty {L W : Type} (x : Externals L W) (rd rd₁ : ResourceData)
    (l : L) (h h₁ h₂ : Host L W) (N : String) (sc₂ : script L) (w : W)
    (hprev :
      (∃ sc w₁, newScript rd l attrScriptLifecycleCommandRead = some sc
          ∧ x.exec sc h.world = (.ok N, w₁)
          ∧ Read x rd l h = some ([], rd₁, h₁))
        ∨ (∃ csc rsc out w₁ w₂,
            newScript rd l attrScriptLifecycleCommandCreate = some csc
              ∧ x.exec csc h.world = (.ok out, w₁)
              ∧ newScript rd l attrScriptLifecycleCommandRead = some rsc
              ∧ x.exec rsc w₁ = (.ok N, w₂)
              ∧ Create x rd l h = some ([], rd₁, h₁)))
    (hsc₂ : newScript rd₁.next l attrScriptLifecycleCommandRead = some sc₂)
    (hexec₂ : x.exec sc₂ h₂.world = (.ok N, w)) :
    ∃ rd₂, Read x rd₁.next l h₂
        = some ([], rd₂, { world := w, executed := h₂.executed ++ [sc₂] })
      ∧ rd₂.Get attrScriptOutput = .str N
      ∧ rd₂.Get attrScriptDirty = .bool false := by
  have hstored : rd₁.Get attrScriptOutput = .str N := by
    rcases hprev with ⟨sc, w₁, hsc, hexec, hres⟩ | ⟨csc, rsc, out, w₁, w₂, hcsc, hcreate, hrsc,
      hread, hres⟩
    · rw [Read_of_ok x rd l h sc N w₁ hsc hexec] at hres
      simp only [Option.some.injEq, Prod.mk.injEq, true_and] at hres
      rw [← hres.1]
      simp +decide [ResourceData.Get_set]
    · rw [Create_of_ok x rd l h csc rsc out N w₁ w₂ hcsc hcreate hrsc hread] at hres
      rcases hrand : x.NewRandom w₂ with ⟨r, w₃⟩
      rw [hrand] at hres
      cases r with
      | error err => simp [diag.FromErr] at hres
      | ok id =>
        simp only [Option.some.injEq, Prod.mk.injEq, true_and] at hres
        rw [← hres.1]
        simp +decide [ResourceData.Get_set]
  have hnext : rd₁.next.Get attrScriptOutput = .str N := by
    rw [next_Get_output, hstored]
    rfl
  exact Read_same_output x rd₁.next l h₂ sc₂ N w hnext hsc₂ hexec₂

/-- The statement of C15 after the `Create` of the scenario of the specification
(`output = hi`, then a read that answers `hi` again), and after a `Read` that found
drift (`hi` became `bye`, `dirty = true`) followed by a read that answers `bye`
again: both second reads leave `dirty = false`. -/
theorem Read_after_success_not_dirty_witness :
    (newScript sampleNew () attrScriptLifecycleCommandCreate = some (sampleScript "echo -n hi")
        ∧ scripted.exec (sampleScript "echo -n hi")
            (scriptedHost [.ok "", .ok "hi"] [.ok sampleUUID]).world
          = (.ok "", { outcomes := [.ok "hi"], uuids := [.ok sampleUUID] })
        ∧ newScript sampleNew () attrScriptLifecycleCommandRead
            = some (sampleScript "echo -n hi")
        ∧ scripted.exec (sampleScript "echo -n hi")
            { outcomes := [.ok "hi"], uuids := [.ok sampleUUID] }
          = (.ok "hi", { outcomes := [], uuids := [.ok sampleUUID] })
        ∧ Create scripted sampleNew () (scriptedHost [.ok "", .ok "hi"] [.ok sampleUUID])
          = some ([], sampleCreated,
              { world := { outcomes := [], uuids := [] },
                executed := [sampleScript "echo -n hi", sampleScript "echo -n hi"] }))
      ∧ newScript sampleCreated.next () attrScriptLifecycleCommandRead
          = some (sampleScript "echo -n hi")
      ∧ scripted.exec (sampleScript "echo -n hi") (scriptedHost [.ok "hi"] []).world
          = (.ok "hi", { outcomes := [], uuids := [] })
      ∧ (∃ rd₂, Read scripted sampleCreated.next () (scriptedHost [.ok "hi"] [])
            = some ([], rd₂,
                { world := { outcomes := [], uuids := [] },
                  executed := (scriptedHost [.ok "hi"] []).executed
                    ++ [sampleScript "echo -n hi"] })
          ∧ rd₂.Get attrScriptOutput = .str "hi"
          ∧ rd₂.Get attrScriptDirty = .bool false)
      ∧ Read scripted (ResourceData.ofState "id" (sampleAttrs sampleCommands "hi")) ()
            (scriptedHost [.ok "bye"] [])
          = some ([], sampleReadBye,
              { world := { outcomes := [], uuids := [] },
                executed := [sampleScript "echo -n hi"] })
      ∧ sampleReadBye.Get attrScriptDirty = .bool true
      ∧ (∃ rd₂, Read scripted sampleReadBye.next () (scriptedHost [.ok "bye"] [])
            = some ([], rd₂,
                { world := { outcomes := [], uuids := [] },
                  executed := (scriptedHost [.ok "bye"] []).executed
                    ++ [sampleScript "echo -n hi"] })
          ∧ rd₂.Get attrScriptOutput = .str "bye"
          ∧ rd₂.Get attrScriptDirty = .bool false) :=
  ⟨⟨rfl, rfl, rfl, rfl, rfl⟩, rfl, rfl,
    Read_after_success_not_dirty scripted sampleNew sampleCreated ()
      (scriptedHost [.ok "", .ok "hi"] [.ok sampleUUID])
      { world := { outcomes := [], uuids := [] },
        executed := [sampleScript "echo -n hi", sampleScript "echo -n hi"] }
      (scriptedHost [.ok "hi"] []) "hi" (sampleScript "echo -n hi")
      { outcomes := [], uuids := [] }
      (Or.inr ⟨sampleScript "echo -n hi", sampleScript "echo -n hi", "",
        { outcomes := [.ok "hi"], uuids := [.ok sampleUUID] },
        { outcomes := [], uuids := [.ok sampleUUID] }, rfl, rfl, rfl, rfl, rfl⟩)
      rfl rfl,
    rfl, rfl,
    Read_after_success_not_dirty scripted
      (ResourceData.ofState "id" (sampleAttrs sampleCommands "hi")) sampleReadBye ()
      (scriptedHost [.ok "bye"] [])
      { world := { outcomes := [], uuids := [] }, executed := [sampleScript "echo -n hi"] }
      (scriptedHost [.ok "bye"] []) "bye" (sampleScript "echo -n hi")
      { outcomes := [], uuids := [] }
      (Or.inl ⟨sampleScript "echo -n hi", { outcomes := [], uuids := [] }, rfl, rfl, rfl⟩)
      rfl rfl⟩

/-! ## The cut of a member key -/

/-- Where the cut of the second loop of `CustomizeDiff` does give the attribute: for a
member whose own key holds no dot, dropping the last part of `attr.member` leaves
`attr`. -/
theorem cut_member_without_dot (attr member : String) (hattr : '.' ∉ attr.data)
    (hmember : '.' ∉ member.data) :
    strings.Join (strings.Split (attr ++ "." ++ member) '.').dropLast "." = attr := by
  have hdata : (attr ++ "." ++ member).data = ['.'].intercalate [attr.data, member.data] := by
    simp [List.intercalate, List.intersperse, String.data_append]
  have hsplit : (attr ++ "." ++ member).data.splitOn '.' = [attr.data, member.data] := by
    rw [hdata]
    refine List.splitOn_intercalate [attr.data, member.data] '.' ?_ (by simp)
    intro l hl
    simp only [List.mem_cons, List.mem_singleton, List.not_mem_nil, or_false] at hl
    rcases hl with rfl | rfl
    · exact hattr
    · exact hmember
  simp only [strings.Join, strings.Split, hsplit, List.map_cons, List.map_nil,
    List.dropLast, String.intercalate, String.intercalate.go]

end handlerScriptResource

end linux
